import Mathlib

/-!
# Python tracer bindings (`torch/csrc/jit/python/python_tracer.cpp`)

A shallow embedding of the tracer entry points, the foreign-call recorder and the
provenance capture of the Python tracer bindings, followed by the properties proved
about them.

Conventions of the embedding:

* `std::string` is `String`; `std::string::size()` is the UTF-8 byte size.
* `size_t` is `Nat` with explicit reduction modulo `2 ^ 64` where the code does arithmetic.
* A C++ function that may throw and that reads or writes process state is a function
  `World → Except Exception α × World`: the state after the call is kept on both the
  normal and the exceptional exit, as it is in C++.
* Pointers into the graph arena (`Node*`) are indices into the list of allocated nodes.
* A `py::dict` is a reference to a dictionary object kept in the process state; the
  object is read where the code reads it, and any callable may change it.
* `tracer::trace` is an argument of the two entry points, so that what they hand to it
  can be stated for every driver; the driver described by the specification is given
  separately as `trace`.
* The members of the graph IR and of the tracer core that the bindings call
  (`createPythonOp`, `addInput`, `insertNode`, `setSourceRange`, `getValueTrace`,
  `setTracingState`, `recordSourceLocation`, `pythonCallstack`) are defined outside the
  bindings and are rendered after the specification; `Source::lineno_for_offset` and the
  conversions of the pybind layer are arguments.
* The acquisition of the interpreter lock and the usage logging
  (`C10_LOG_API_USAGE_ONCE`) touch neither the tracer state nor the values computed and
  are left out.
-/

namespace torch.jit.tracer

/-! ## Machine integers -/

/-- Number of values of `size_t`. -/
def SIZE_T_RANGE : Nat := 2 ^ 64

/-- Addition on `size_t` operands: the sum reduced modulo `2 ^ 64`. -/
def size_t_add (a b : Nat) : Nat := (a + b) % SIZE_T_RANGE

/-- Conversion of a C `int` to `size_t`, as in `size_t line = PyCode_Addr2Line(..)`. -/
def int_to_size_t (i : Int) : Nat := (i % (SIZE_T_RANGE : Int)).toNat

/-! ## Source locations (`Source`, `SourceRange`, `StackEntry`)

These types are declared in headers of the frontend; only the members used by the
bindings are kept. -/

/-- The object built by `Source(text, filename, starting_line_no)`. -/
structure Source where
  text : String
  filename : Option String
  starting_line_no : Nat
deriving DecidableEq, Repr

/-- The object built by `SourceRange(source, start, end)`; `source` is a shared pointer
and may be null. -/
structure SourceRange where
  source : Option Source
  start : Nat
  end_ : Nat
deriving DecidableEq, Repr

/-- One entry of a call stack, `StackEntry{filename, range}`. -/
structure StackEntry where
  filename : String
  range : SourceRange
deriving DecidableEq, Repr

/-! ## The host interpreter -/

/-- The members of a Python code object read by `_pythonCallstack`. -/
structure PyCodeObject where
  co_filename : String
  co_name : String
deriving DecidableEq, Repr

/-- A live interpreter frame: its code object (`PyFrame_GetCode`) and the value of
`PyCode_Addr2Line(code, PyFrame_GetLasti(frame))`, a C `int`. The chain of `PyFrame_GetBack`
is the tail of the list the frame is kept in. -/
structure PyFrameObject where
  code : PyCodeObject
  addr2line : Int
deriving DecidableEq, Repr

/-- A Python object as far as the bindings inspect it: the `None` singleton, a `str`,
or any other object identified by its address. -/
inductive PyObject where
  | None
  | str (s : String)
  | obj (addr : Nat)
deriving DecidableEq, Repr

/-- A dictionary object of the interpreter: its items in iteration order; the keys of a
dictionary are pairwise distinct. -/
structure dict where
  items : List (PyObject × PyObject)
  unique_keys : (items.map Prod.fst).Nodup

/-- A `py::dict`: a reference to a dictionary object of the interpreter, designated by
the address of the object. The reference keeps the object alive, and the object can be
changed by any code that holds a reference to it. -/
structure py_dict where
  addr : Nat
deriving DecidableEq, Repr

/-- Exceptions that leave the functions of this file. -/
inductive Exception where
  | python_error
  | c10_Error (msg : String)
  | cast_error
  | lookup_error
  | undefined_behavior
  | raised (code : Nat)
deriving DecidableEq, Repr

/-! ## Graph IR and tracing session -/

/-- A runtime value (`c10::IValue`); the tracer only uses its identity. -/
structure IValue where
  id : Nat
deriving DecidableEq, Repr

/-- A traced tensor (`autograd::Variable`); it converts implicitly to `IValue`. -/
abbrev Variable := IValue

/-- The operand stack of runtime values, `Stack = std::vector<IValue>`. -/
abbrev Stack := List IValue

/-- An IR value (`Value*`), identified by its unique number. -/
structure Value where
  unique : Nat
deriving DecidableEq, Repr

/-- The closed set of node kinds: a native operator or a foreign call with its payload
(the apply target, the argument-type descriptor and the captured scalar arguments). -/
inductive NodeKind where
  | native (op : String)
  | PythonOp (pyobj : PyObject) (cconv : String) (scalar_args : List PyObject)
deriving DecidableEq, Repr

/-- A graph node: kind, input edges, source range and scope. -/
structure Node where
  kind : NodeKind
  inputs : List Value
  source_range : Option SourceRange
  scope : List String
deriving DecidableEq, Repr

/-- A pointer to a node of a graph: the position of the node in the arena of the graph. -/
abbrev NodePtr := Nat

/-- The graph under construction. `all_nodes` is the arena of every node allocated by
the graph, `nodes` the sequence of nodes inserted in its block, `insert_point` the
position in `nodes` before which `insertNode` places a node. -/
structure Graph where
  all_nodes : List Node
  nodes : List NodePtr
  insert_point : Nat
  inputs : List (Value × String)
  outputs : List Value
  scope_stack : List String
  next_unique : Nat
deriving DecidableEq, Repr

/-- The tracing session (`TracingState`). -/
structure TracingState where
  graph : Graph
  value_table : List (IValue × Value)
  strict : Bool
  force_outplace : Bool
deriving DecidableEq, Repr

/-- A module handle (`Module*`). -/
structure Module where
  id : Nat
deriving DecidableEq, Repr

/-- The two strategies that can occupy the `record_source_location` slot. -/
inductive RecordSourceLocationFn where
  | defaultRecordSourceLocation
  | pythonRecordSourceLocation
deriving DecidableEq, Repr

/-- Process state read and written by the bindings: the live interpreter frames
(innermost first), the dictionary objects of the interpreter by address, the two hook
slots and the thread-local active session. -/
structure World where
  frames : List PyFrameObject
  dicts : Nat → dict
  python_callstack_fn : Option (List PyFrameObject → List StackEntry)
  record_source_location : RecordSourceLocationFn
  tracing_state : Option TracingState

/-- Computations over the process state that may throw. -/
def M (α : Type) : Type := World → Except Exception α × World

/-- Sequencing: an exception skips the rest and keeps the state reached. -/
def M.bind {α β : Type} (x : M α) (f : α → M β) : M β := fun w =>
  match x w with
  | (Except.ok a, w1) => f a w1
  | (Except.error e, w1) => (Except.error e, w1)

/-- Normal return. -/
def M.pure {α : Type} (a : α) : M α := fun w => (Except.ok a, w)

instance : Monad M where
  pure := M.pure
  bind := M.bind

/-- The statement `throw e`. -/
def M.throw {α : Type} (e : Exception) : M α := fun w => (Except.error e, w)

/-- A computation that does not touch the process state. -/
def M.lift {α : Type} (x : Except Exception α) : M α := fun w => (x, w)

/-- The dictionary object a `py::dict` designates, as it is in a process state. -/
def World.dict_at (w : World) (d : py_dict) : dict := w.dicts d.addr

/-- A read of the dictionary object behind a `py::dict` (`contains`, iteration,
unpacking): the object as it is at the time of the read; the state is not changed. -/
def py_dict.read (d : py_dict) : M dict := fun w => (Except.ok (w.dict_at d), w)

/-! ## Provenance capture -/

/-- The function `_pythonCallstack`: walk the frames outward; every frame gives the
entry `StackEntry{funcname, SourceRange(Source(funcname, filename, line), 0, funcname.size())}`. -/
def _pythonCallstack : List PyFrameObject → List StackEntry
  | [] => []
  | frame :: back =>
    let line := int_to_size_t frame.addr2line
    let filename := frame.code.co_filename
    let funcname := frame.code.co_name
    let source : Source := ⟨funcname, some filename, line⟩
    ⟨funcname, ⟨some source, 0, funcname.utf8ByteSize⟩⟩ :: _pythonCallstack back

/-- Modelled from the spec: `pythonCallstack()`, the call through the registered
call-stack provider, which is defined with the tracer core and not in the bindings.
With no provider registered the capture degrades to an empty call stack. -/
def pythonCallstack (w : World) : List StackEntry :=
  match w.python_callstack_fn with
  | none => []
  | some provider => provider w.frames

/-- The locals of the loop of `getPythonInterpreterSourceRange`. -/
structure SourceRangeLocals where
  source_filename : Option String
  source_line : Nat
  stack_trace : String
deriving DecidableEq, Repr

/-- One iteration of the loop over the call stack. `lineno_for_offset` is the member
function of `Source` of that name. -/
def getPythonInterpreterSourceRange.body (lineno_for_offset : Source → Nat → Nat)
    (st : SourceRangeLocals) (entry : StackEntry) : SourceRangeLocals :=
  match entry.range.source with
  | none => st
  | some src =>
    match src.filename with
    | none => st
    | some fname =>
      let line := size_t_add src.starting_line_no (lineno_for_offset src entry.range.start)
      let stack_trace :=
        st.stack_trace ++ fname ++ "(" ++ toString line ++ "): " ++ entry.filename ++ "\n"
      match st.source_filename with
      | none => ⟨some fname, line, stack_trace⟩
      | some _ => ⟨st.source_filename, st.source_line, stack_trace⟩

/-- The function `getPythonInterpreterSourceRange`. -/
def getPythonInterpreterSourceRange (lineno_for_offset : Source → Nat → Nat)
    (w : World) : SourceRange :=
  let cs := pythonCallstack w
  let st := cs.foldl (getPythonInterpreterSourceRange.body lineno_for_offset) ⟨none, 0, ""⟩
  let stack_trace_text := st.stack_trace
  let source : Source := ⟨stack_trace_text, st.source_filename, st.source_line⟩
  ⟨some source, 0, stack_trace_text.utf8ByteSize⟩

/-! ## The pybind layer -/

/-- A static type of the IR (`TypePtr`). -/
structure TypePtr where
  id : Nat
deriving DecidableEq, Repr

/-- Operations of the pybind layer used by the bindings and declared elsewhere:
`tryToInferType(obj).type()`, `toIValue(obj, type)`, `toTypeInferredIValue(obj)`,
`py::cast` of a runtime value to a host object, and `PyObject_GetAttrString`
(`none` is the null result). -/
structure PyBind where
  tryToInferType_type : PyObject → Except Exception TypePtr
  toIValue : PyObject → TypePtr → Except Exception IValue
  toTypeInferredIValue : PyObject → Except Exception IValue
  cast : IValue → Except Exception PyObject
  PyObject_GetAttrString : PyObject → String → Option PyObject

/-- The conversion `py::cast<std::string>(obj)`: defined on `str` objects. -/
def cast_string : PyObject → Except Exception String
  | PyObject.str s => Except.ok s
  | _ => Except.error Exception.cast_error

/-- The test `inputs_dict.contains(name)`: some key equals the `str` built from `name`. -/
def dict.contains (d : dict) (name : String) : Bool :=
  d.items.any (fun it => it.1 == PyObject.str name)

/-- A `py::function`: the outcome of calling it with a tuple of positional arguments and
the items of the keyword dictionary. -/
abbrev py_function := List PyObject → List (PyObject × PyObject) → M PyObject

/-- The signature of `tracer::trace`. -/
abbrev TraceFn :=
  Stack → (Stack → M Stack) → (Variable → M String) → Bool → Bool → Option Module →
    List String → M (TracingState × Stack)

/-- The message of the check on the result of the traced function. -/
def no_output_msg : String :=
  "The traced function didn't return any values! Side-effects are not " ++
    "captured in traces, so it would be a no-op."

/-- The closure `lookup_fn_adapter` of both entry points. -/
def lookup_fn_adapter (api : PyBind) (var_name_lookup_fn : py_function) (var : Variable) :
    M String := do
  let arg ← M.lift (api.cast var)
  let name ← var_name_lookup_fn [arg] []
  M.lift (cast_string name)

/-! ## Keyed entry point -/

/-- The first loop of `createGraphByTracingWithDict`: keep the names the mapping contains. -/
def createGraphByTracingWithDict.compact_argument_names (inputs_dict : dict)
    (argument_names : List String) : List String :=
  argument_names.foldl
    (fun compact argument_name =>
      if inputs_dict.contains argument_name then compact ++ [argument_name] else compact)
    []

/-- The expression `toIValue(it->second, tryToInferType(it->second).type())`. -/
def createGraphByTracingWithDict.convert (api : PyBind) (value : PyObject) :
    Except Exception IValue := do
  let type ← api.tryToInferType_type value
  api.toIValue value type

/-- The body of the inner loop: push the converted value of the item when its key casts
to the name. -/
def createGraphByTracingWithDict.inner_body (api : PyBind) (compact_argument_name : String)
    (compact_trace_inputs : Stack) (it : PyObject × PyObject) : Except Exception Stack := do
  let key ← cast_string it.1
  if key = compact_argument_name then
    let v ← createGraphByTracingWithDict.convert api it.2
    pure (compact_trace_inputs ++ [v])
  else
    pure compact_trace_inputs

/-- The inner loop: iterate over the items of the mapping. -/
def createGraphByTracingWithDict.push_matching (api : PyBind) (inputs_dict : dict)
    (compact_trace_inputs : Stack) (compact_argument_name : String) :
    Except Exception Stack :=
  inputs_dict.items.foldlM
    (createGraphByTracingWithDict.inner_body api compact_argument_name)
    compact_trace_inputs

/-- The second loop of `createGraphByTracingWithDict`. -/
def createGraphByTracingWithDict.compact_trace_inputs (api : PyBind) (inputs_dict : dict)
    (compact_argument_names : List String) : Except Exception Stack :=
  compact_argument_names.foldlM
    (createGraphByTracingWithDict.push_matching api inputs_dict) []

/-- The closure handed to `tracer::trace` by `createGraphByTracingWithDict`; the call
`func(**inputs_dict)` unpacks the mapping as it is when the closure runs. -/
def createGraphByTracingWithDict.traced_fn (api : PyBind) (func : py_function)
    (inputs_dict : py_dict) (_inputs : Stack) : M Stack := do
  let kwargs ← inputs_dict.read
  let out ← func [] kwargs.items
  if out = PyObject.None then
    M.throw (Exception.c10_Error no_output_msg)
  else do
    let v ← M.lift (api.toTypeInferredIValue out)
    pure [v]

/-- The function `createGraphByTracingWithDict`; `trace` is `tracer::trace`. -/
def createGraphByTracingWithDict (trace : TraceFn) (api : PyBind) (func : py_function)
    (inputs_dict : py_dict) (_trace_inputs : Stack) (var_name_lookup_fn : py_function)
    (strict force_outplace : Bool) (self : Option Module) (argument_names : List String) :
    M (Graph × Stack) := do
  let mapping ← inputs_dict.read
  let compact_argument_names :=
    createGraphByTracingWithDict.compact_argument_names mapping argument_names
  let mapping ← inputs_dict.read
  let compact_trace_inputs ←
    M.lift (createGraphByTracingWithDict.compact_trace_inputs api mapping
      compact_argument_names)
  let outs ← trace compact_trace_inputs
    (createGraphByTracingWithDict.traced_fn api func inputs_dict)
    (lookup_fn_adapter api var_name_lookup_fn) strict force_outplace self
    compact_argument_names
  pure (outs.1.graph, outs.2)

/-! ## Positional entry point -/

/-- One iteration of the loop filling the argument tuple: `py_inputs[i] = py::cast(inputs[i])`.
An index outside `inputs` is undefined in C++ and stops the model. -/
def createGraphByTracing.assign (api : PyBind) (inputs : Stack)
    (py_inputs : List (Option PyObject)) (i : Nat) : Except Exception (List (Option PyObject)) :=
  match inputs[i]? with
  | none => Except.error Exception.undefined_behavior
  | some input => do
    let o ← api.cast input
    pure (py_inputs.set i (some o))

/-- The unpacking `*py_inputs`: the items of the tuple, none of which may be null. -/
def createGraphByTracing.unpack : List (Option PyObject) → Except Exception (List PyObject)
  | [] => Except.ok []
  | none :: _ => Except.error Exception.undefined_behavior
  | some o :: rest => do
    let os ← createGraphByTracing.unpack rest
    pure (o :: os)

/-- The closure handed to `tracer::trace` by `createGraphByTracing`. -/
def createGraphByTracing.traced_fn (api : PyBind) (func : py_function) (inputs : Stack) :
    M Stack := do
  let num_func_inputs := inputs.length
  let py_inputs ← M.lift
    ((List.range num_func_inputs).foldlM (createGraphByTracing.assign api inputs)
      (List.replicate num_func_inputs none))
  let args ← M.lift (createGraphByTracing.unpack py_inputs)
  let out ← func args []
  if out = PyObject.None then
    M.throw (Exception.c10_Error no_output_msg)
  else do
    let v ← M.lift (api.toTypeInferredIValue out)
    pure [v]

/-- The function `createGraphByTracing`; `trace` is `tracer::trace`. -/
def createGraphByTracing (trace : TraceFn) (api : PyBind) (func : py_function)
    (trace_inputs : Stack) (var_name_lookup_fn : py_function)
    (strict force_outplace : Bool) (self : Option Module) (argument_names : List String) :
    M (Graph × Stack) := do
  let outs ← trace trace_inputs (createGraphByTracing.traced_fn api func)
    (lookup_fn_adapter api var_name_lookup_fn) strict force_outplace self argument_names
  pure (outs.1.graph, outs.2)

/-! ## Graph primitives and session access

The graph and the value table belong to the tracer core; their operations are rendered
here as far as the bindings call them. -/

/-- The graph with another arena. -/
def Graph.withAllNodes (g : Graph) (all_nodes : List Node) : Graph :=
  { g with all_nodes := all_nodes }

/-- The session with another graph. -/
def TracingState.withGraph (st : TracingState) (g : Graph) : TracingState :=
  { st with graph := g }

/-- Modelled from the spec: `Graph::createPythonOp`, which is defined with the graph IR.
It allocates a foreign-call node carrying the apply target, the argument-type descriptor
and the captured scalars, stamped with the current scope, with no input edge yet; the
node is owned by the graph but not inserted. -/
def Graph.createPythonOp (g : Graph) (apply : PyObject) (arg_types : String)
    (scalar_args : List PyObject) : NodePtr × Graph :=
  let n : Node := ⟨NodeKind.PythonOp apply arg_types scalar_args, [], none, g.scope_stack⟩
  (g.all_nodes.length, g.withAllNodes (g.all_nodes ++ [n]))

/-- Update of the node a pointer designates. -/
def Graph.updateNode (g : Graph) (n : NodePtr) (f : Node → Node) : Graph :=
  match g.all_nodes[n]? with
  | none => g
  | some node => g.withAllNodes (g.all_nodes.set n (f node))

/-- Modelled from the spec: `Node::addInput`, which is defined with the graph IR:
a new last input edge from the value. -/
def Graph.addInput (g : Graph) (n : NodePtr) (v : Value) : Graph :=
  g.updateNode n (fun node => { node with inputs := node.inputs ++ [v] })

/-- Modelled from the spec: `Node::setSourceRange`, which is defined with the graph IR. -/
def Graph.setSourceRange (g : Graph) (n : NodePtr) (r : SourceRange) : Graph :=
  g.updateNode n (fun node => { node with source_range := some r })

/-- Modelled from the spec: `Graph::insertNode`, which is defined with the graph IR:
the node is placed in the node sequence of the graph, before the insertion point. -/
def Graph.insertNode (g : Graph) (n : NodePtr) : Graph :=
  { g with
    nodes := g.nodes.take g.insert_point ++ n :: g.nodes.drop g.insert_point
    insert_point := g.insert_point + 1 }

/-- Modelled from the spec: `setTracingState`, which is defined with the tracer core:
the session registry of the thread is set to the given session or cleared. -/
def World.setTracingState (w : World) (state : Option TracingState) : World :=
  { w with tracing_state := state }

/-- The expression `getTracingState()->graph`: dereferencing an empty session pointer is
undefined in C++ and stops the model. -/
def derefTracingState : M TracingState := fun w =>
  match w.tracing_state with
  | none => (Except.error Exception.undefined_behavior, w)
  | some st => (Except.ok st, w)

/-- A member call on the graph of the active session. -/
def onGraph {α : Type} (f : Graph → α × Graph) : M α := fun w =>
  match w.tracing_state with
  | none => (Except.error Exception.undefined_behavior, w)
  | some st =>
    let r := f st.graph
    (Except.ok r.1, w.setTracingState (some (st.withGraph r.2)))

/-- Modelled from the spec: `getValueTrace`, which is defined with the tracer core:
the IR value currently bound to the runtime value in the value table of the active
session; a value never registered is a lookup failure. -/
def getValueTrace (var : IValue) : M Value := fun w =>
  match w.tracing_state with
  | none => (Except.error Exception.undefined_behavior, w)
  | some st =>
    match st.value_table.lookup var with
    | none => (Except.error Exception.lookup_error, w)
    | some v => (Except.ok v, w)

/-! ## Foreign-call recorder -/

/-- The function `pythonRecordSourceLocation`; `n` points into the graph of the active
session. -/
def pythonRecordSourceLocation (lineno_for_offset : Source → Nat → Nat) (n : NodePtr) :
    M Unit := fun w =>
  onGraph (fun g => ((), g.setSourceRange n (getPythonInterpreterSourceRange lineno_for_offset w))) w

/-- Modelled from the spec: `recordSourceLocation`, the call through the registered
provenance strategy, which is defined with the tracer core; the strategy registered by
default does nothing. -/
def recordSourceLocation (lineno_for_offset : Source → Nat → Nat) (n : NodePtr) : M Unit :=
  fun w =>
    match w.record_source_location with
    | RecordSourceLocationFn.defaultRecordSourceLocation => (Except.ok (), w)
    | RecordSourceLocationFn.pythonRecordSourceLocation =>
      pythonRecordSourceLocation lineno_for_offset n w

/-- The loop `for (const Variable& input : inputs) n->addInput(getValueTrace(input))`. -/
def preRecordPythonTrace.addInputs (n : NodePtr) : List Variable → M Unit
  | [] => pure ()
  | input :: rest => do
    let v ← getValueTrace input
    onGraph (fun g => ((), g.addInput n v))
    preRecordPythonTrace.addInputs n rest

/-- The function `preRecordPythonTrace`. -/
def preRecordPythonTrace (api : PyBind) (lineno_for_offset : Source → Nat → Nat)
    (pyobj : PyObject) (arg_types : String) (inputs : List Variable)
    (scalar_args : List PyObject) : M NodePtr := do
  let apply ←
    match api.PyObject_GetAttrString pyobj "apply" with
    | none => M.throw Exception.python_error
    | some apply => pure apply
  let _ ← derefTracingState
  let n ← onGraph (fun g => g.createPythonOp apply arg_types scalar_args)
  recordSourceLocation lineno_for_offset n
  preRecordPythonTrace.addInputs n inputs
  onGraph (fun g => ((), g.insertNode n))
  pure n

/-- The registrations made by `initPythonTracerBindings`: the call-stack provider and the
provenance strategy of the bindings take the two hook slots. The definitions of the
Python-visible functions made by the same function add nothing to the process state. -/
def initPythonTracerBindings (w : World) : World :=
  { w with
    python_callstack_fn := some _pythonCallstack
    record_source_location := RecordSourceLocationFn.pythonRecordSourceLocation }

/-! ## The trace driver -/

/-- The empty graph of a new session. -/
def Graph.empty : Graph := ⟨[], [], 0, [], [], [], 0⟩

/-- Modelled from the spec: the declaration of graph inputs by `tracer::trace`:
one graph input per element of the input sequence, in order, each bound in the value
table to the runtime value it stands for; the argument name of the same position, when
there is one, is its debug name. A binding is put in front of the table, so that a
lookup finds the current binding of a value. -/
def trace.declare_inputs (argument_names : List String) :
    List IValue → TracingState → TracingState
  | [], st => st
  | input :: rest, st =>
    let v : Value := ⟨st.graph.next_unique⟩
    let name := (argument_names[st.graph.inputs.length]?).getD ""
    trace.declare_inputs argument_names rest
      { st with
        graph := { st.graph with
          inputs := st.graph.inputs ++ [(v, name)]
          next_unique := st.graph.next_unique + 1 }
        value_table := (input, v) :: st.value_table }

/-- Modelled from the spec: the session installed by `tracer::trace` before the callable
runs. -/
def trace.new_session (inputs : Stack) (strict force_outplace : Bool)
    (argument_names : List String) : TracingState :=
  trace.declare_inputs argument_names inputs ⟨Graph.empty, [], strict, force_outplace⟩

/-- Modelled from the spec: the recording of the outputs by `tracer::trace`: the IR
value of every output is read from the value table; an output never registered is a
lookup failure. -/
def trace.outputs (st : TracingState) : Stack → Except Exception (List Value)
  | [] => Except.ok []
  | output :: rest =>
    match st.value_table.lookup output with
    | none => Except.error Exception.lookup_error
    | some v => do
      let vs ← trace.outputs st rest
      pure (v :: vs)

/-- Modelled from the spec: `tracer::trace`, which is defined with the tracer core and
not in the bindings. An active session is an error; otherwise a new session with one
graph input per input is published, the callable is run, its outputs are recorded as
the outputs of the graph, the session is detached and returned with the output values.
Every error unwinds to the caller and leaves the session registry cleared. -/
def trace : TraceFn :=
  fun inputs traced_fn _var_name_lookup_fn strict force_outplace _self argument_names w =>
    match w.tracing_state with
    | some _ =>
      (Except.error (Exception.c10_Error "Tracing can't be nested"), w.setTracingState none)
    | none =>
      let state := trace.new_session inputs strict force_outplace argument_names
      match traced_fn inputs (w.setTracingState (some state)) with
      | (Except.error e, w1) => (Except.error e, w1.setTracingState none)
      | (Except.ok out_stack, w1) =>
        let st := w1.tracing_state.getD state
        match trace.outputs st out_stack with
        | Except.error e => (Except.error e, w1.setTracingState none)
        | Except.ok vs =>
          (Except.ok ({ st with graph := { st.graph with outputs := vs } }, out_stack),
            w1.setTracingState none)

/-! ## Descriptions used in the statements -/

/-- The filename an entry is known by: that of the source of its range, if any. -/
def knownFilename (entry : StackEntry) : Option String :=
  match entry.range.source with
  | none => none
  | some src => src.filename

/-- The line reported for an entry: the starting line of its source plus the line
offset of the start of its range, as `size_t`. -/
def entryLine (lineno_for_offset : Source → Nat → Nat) (entry : StackEntry) : Nat :=
  match entry.range.source with
  | none => 0
  | some src => size_t_add src.starting_line_no (lineno_for_offset src entry.range.start)

/-- The line `<file>(<line>): <name>` an entry with a known filename contributes to the
trace text; an entry without one contributes nothing. -/
def stackTraceLine (lineno_for_offset : Source → Nat → Nat) (entry : StackEntry) : String :=
  match knownFilename entry with
  | none => ""
  | some fname =>
    fname ++ "(" ++ toString (entryLine lineno_for_offset entry) ++ "): " ++
      entry.filename ++ "\n"

/-- The trace text of a call stack: the lines of its entries, in stack order. -/
def stackTraceText (lineno_for_offset : Source → Nat → Nat) : List StackEntry → String
  | [] => ""
  | entry :: rest =>
    stackTraceLine lineno_for_offset entry ++ stackTraceText lineno_for_offset rest

/-- What a closure handed to the tracer makes of the outcome of the call of the traced
callable: an exception propagates, the `None` result is the no-output error, any other
result is converted and returned as the only element of the output list. -/
def returned_stack (api : PyBind) (r : Except Exception PyObject × World) :
    Except Exception Stack × World :=
  match r with
  | (Except.error e, w1) => (Except.error e, w1)
  | (Except.ok out, w1) =>
    if out = PyObject.None then
      (Except.error (Exception.c10_Error no_output_msg), w1)
    else
      match api.toTypeInferredIValue out with
      | Except.error e => (Except.error e, w1)
      | Except.ok v => (Except.ok [v], w1)

/-! ## Sample data -/

/-- A pybind layer in which the object at address `a` converts to the runtime value `a`
and back, and the objects at addresses below 100 have an apply target. -/
def sample_api : PyBind where
  tryToInferType_type := fun _ => Except.ok ⟨0⟩
  toIValue := fun o _ =>
    match o with
    | PyObject.obj a => Except.ok ⟨a⟩
    | _ => Except.error Exception.cast_error
  toTypeInferredIValue := fun o =>
    match o with
    | PyObject.obj a => Except.ok ⟨a⟩
    | _ => Except.error Exception.cast_error
  cast := fun iv => Except.ok (PyObject.obj iv.id)
  PyObject_GetAttrString := fun o name =>
    match o with
    | PyObject.obj a => if name = "apply" ∧ a < 100 then some (PyObject.obj (a + 1000)) else none
    | _ => none

/-- The mapping `{"c": <object 3>, "b": <object 2>}`, iterated in that order. -/
def sample_dict : dict :=
  ⟨[(PyObject.str "c", PyObject.obj 3), (PyObject.str "b", PyObject.obj 2)], by decide⟩

/-- A reference to the dictionary object at address 0. -/
def sample_mapping : py_dict := ⟨0⟩

/-- A store of dictionary objects: `sample_dict` at address 0 and empty dictionaries at
the other addresses. -/
def sample_dicts : Nat → dict := fun a => if a = 0 then sample_dict else ⟨[], List.nodup_nil⟩

/-- A callable that replaces the items of the dictionary object at address 0 by the one
item `"seen": <object 0>` and returns the object at address 2. -/
def writing_func : py_function := fun _ _ w =>
  (Except.ok (PyObject.obj 2),
    { w with dicts := fun a =>
        if a = 0 then ⟨[(PyObject.str "seen", PyObject.obj 0)], by decide⟩ else w.dicts a })

/-- A callable that copies the keyword arguments it receives into the dictionary object
at address 1 and returns the object at address 2. -/
def recording_func : py_function := fun _ kwargs w =>
  (Except.ok (PyObject.obj 2),
    { w with dicts := fun a =>
        if a = 1 then
          (if h : (kwargs.map Prod.fst).Nodup then ⟨kwargs, h⟩ else w.dicts a)
        else w.dicts a })

/-- A callable that returns its first positional argument. -/
def sample_func : py_function := fun args _ w => (Except.ok (args.headD (PyObject.obj 0)), w)

/-- A callable that returns `None`. -/
def none_func : py_function := fun _ _ w => (Except.ok PyObject.None, w)

/-- A name lookup that answers `"x"`. -/
def sample_lookup : py_function := fun _ _ w => (Except.ok (PyObject.str "x"), w)

/-- A line numbering of sources: the number of line feeds before the offset. -/
def sample_lineno_for_offset (src : Source) (offset : Nat) : Nat :=
  ((src.text.toList.take offset).filter (fun c => c.toNat = 10)).length

/-- A process with two live frames, the bindings initialised and no active session. -/
def sample_world : World :=
  initPythonTracerBindings
    ⟨[⟨⟨"model.py", "forward"⟩, 12⟩, ⟨⟨"train.py", "main"⟩, 40⟩], sample_dicts, none,
      RecordSourceLocationFn.defaultRecordSourceLocation, none⟩

/-- A process whose call-stack provider reports four entries: one without a source, one
whose source has no filename, and two with a known filename. -/
def mixed_world : World :=
  ⟨[], sample_dicts, some (fun _ =>
      [⟨"helper", ⟨none, 0, 0⟩⟩,
        ⟨"anon", ⟨some ⟨"x", none, 7⟩, 0, 1⟩⟩,
        ⟨"forward", ⟨some ⟨"forward", some "model.py", 12⟩, 0, 7⟩⟩,
        ⟨"run", ⟨some ⟨"a\nb", some "train.py", 40⟩, 2, 3⟩⟩]),
    RecordSourceLocationFn.defaultRecordSourceLocation, none⟩

/-- A process with no call-stack provider registered. -/
def bare_world : World :=
  ⟨[⟨⟨"model.py", "forward"⟩, 12⟩], sample_dicts, none,
    RecordSourceLocationFn.defaultRecordSourceLocation, none⟩

/-- A session whose graph holds one inserted node and whose value table binds the runtime
values 1 and 2. -/
def sample_session : TracingState :=
  ⟨⟨[⟨NodeKind.native "aten::add", [⟨10⟩, ⟨11⟩], none, []⟩], [0], 1,
      [(⟨10⟩, "a"), (⟨11⟩, "b")], [], [], 12⟩,
    [(⟨1⟩, ⟨10⟩), (⟨2⟩, ⟨11⟩)], false, false⟩

/-- The initialised process with `sample_session` active. -/
def tracing_world : World := sample_world.setTracingState (some sample_session)

/-- A trace driver that runs nothing and returns the given session and outputs. -/
def const_trace (st : TracingState) (outs : Stack) : TraceFn :=
  fun _ _ _ _ _ _ _ w => (Except.ok (st, outs), w)

/-- A process whose call-stack provider reports only entries without a known filename. -/
def unknown_world : World :=
  ⟨[], sample_dicts, some (fun _ =>
      [⟨"helper", ⟨none, 0, 0⟩⟩, ⟨"anon", ⟨some ⟨"x", none, 7⟩, 0, 1⟩⟩]),
    RecordSourceLocationFn.defaultRecordSourceLocation, none⟩

/-- The graph traced from the callable returning its only argument: one input named `x`,
which is also the output. -/
def identity_graph : Graph := ⟨[], [], 0, [(⟨0⟩, "x")], [⟨0⟩], [], 1⟩

/-! ## Properties -/

section Provenance

variable (lineno_for_offset : Source → Nat → Nat)

theorem body_unknown (st : SourceRangeLocals) (entry : StackEntry)
    (h : knownFilename entry = none) :
    getPythonInterpreterSourceRange.body lineno_for_offset st entry = st := by
  unfold getPythonInterpreterSourceRange.body
  unfold knownFilename at h
  cases hs : entry.range.source with
  | none => rfl
  | some src =>
    rw [hs] at h
    dsimp only at h
    simp only [h]

theorem body_known (st : SourceRangeLocals) (entry : StackEntry) (fname : String)
    (h : knownFilename entry = some fname) :
    getPythonInterpreterSourceRange.body lineno_for_offset st entry =
      ⟨(match st.source_filename with | none => some fname | some f => some f),
       (match st.source_filename with
        | none => entryLine lineno_for_offset entry
        | some _ => st.source_line),
       st.stack_trace ++ stackTraceLine lineno_for_offset entry⟩ := by
  unfold getPythonInterpreterSourceRange.body stackTraceLine entryLine
  rw [h]
  unfold knownFilename at h
  cases hs : entry.range.source with
  | none => rw [hs] at h; cases h
  | some src =>
    rw [hs] at h
    dsimp only at h
    simp only [h]
    cases hf : st.source_filename <;> simp [String.append_assoc]

theorem foldl_body_unknown (cs : List StackEntry)
    (h : ∀ e ∈ cs, knownFilename e = none) (st : SourceRangeLocals) :
    cs.foldl (getPythonInterpreterSourceRange.body lineno_for_offset) st = st := by
  induction cs generalizing st with
  | nil => rfl
  | cons e rest ih =>
    rw [List.foldl_cons, body_unknown lineno_for_offset st e (h e (List.mem_cons_self _ _))]
    exact ih (fun x hx => h x (List.mem_cons_of_mem _ hx)) st

theorem foldl_body_stack_trace (cs : List StackEntry) (st : SourceRangeLocals) :
    (cs.foldl (getPythonInterpreterSourceRange.body lineno_for_offset) st).stack_trace =
      st.stack_trace ++ stackTraceText lineno_for_offset cs := by
  induction cs generalizing st with
  | nil => simp [stackTraceText]
  | cons e rest ih =>
    rw [List.foldl_cons, ih]
    cases hk : knownFilename e with
    | none =>
      rw [body_unknown lineno_for_offset st e hk]
      simp [stackTraceText, stackTraceLine, hk]
    | some fname =>
      rw [body_known lineno_for_offset st e fname hk]
      simp [stackTraceText, String.append_assoc]

theorem foldl_body_named (cs : List StackEntry) (st : SourceRangeLocals) (f : String)
    (hst : st.source_filename = some f) :
    (cs.foldl (getPythonInterpreterSourceRange.body lineno_for_offset) st).source_filename
        = some f ∧
      (cs.foldl (getPythonInterpreterSourceRange.body lineno_for_offset) st).source_line
        = st.source_line := by
  induction cs generalizing st with
  | nil => exact ⟨hst, rfl⟩
  | cons e rest ih =>
    rw [List.foldl_cons]
    cases hk : knownFilename e with
    | none =>
      rw [body_unknown lineno_for_offset st e hk]
      exact ih st hst
    | some fname =>
      rw [body_known lineno_for_offset st e fname hk]
      have := ih ⟨some f, st.source_line, st.stack_trace ++ stackTraceLine lineno_for_offset e⟩ rfl
      simpa [hst] using this

theorem foldl_body_first (cs : List StackEntry) (st : SourceRangeLocals) (entry : StackEntry)
    (hst : st.source_filename = none)
    (hfind : cs.find? (fun e => (knownFilename e).isSome) = some entry) :
    (cs.foldl (getPythonInterpreterSourceRange.body lineno_for_offset) st).source_filename
        = knownFilename entry ∧
      (cs.foldl (getPythonInterpreterSourceRange.body lineno_for_offset) st).source_line
        = entryLine lineno_for_offset entry := by
  induction cs generalizing st with
  | nil => simp at hfind
  | cons e rest ih =>
    rw [List.foldl_cons]
    cases hk : knownFilename e with
    | none =>
      rw [body_unknown lineno_for_offset st e hk]
      rw [List.find?_cons] at hfind
      simp only [hk, Option.isSome_none] at hfind
      exact ih st hst hfind
    | some fname =>
      rw [body_known lineno_for_offset st e fname hk]
      rw [List.find?_cons] at hfind
      simp only [hk, Option.isSome_some, Option.some.injEq] at hfind
      subst hfind
      have := foldl_body_named lineno_for_offset rest
        ⟨some fname, entryLine lineno_for_offset e,
          st.stack_trace ++ stackTraceLine lineno_for_offset e⟩ fname rfl
      simpa [hst, hk] using this

theorem pythonCallstack_entries_known (frames : List PyFrameObject) :
    ∀ e ∈ _pythonCallstack frames, (knownFilename e).isSome = true := by
  induction frames with
  | nil =>
    intro e he
    cases he
  | cons frame back ih =>
    intro e he
    unfold _pythonCallstack at he
    rcases List.mem_cons.mp he with heq | htail
    · subst heq
      rfl
    · exact ih e htail

theorem source_range_of_first (w : World) (entry : StackEntry)
    (hfirst : (pythonCallstack w).find? (fun e => (knownFilename e).isSome) = some entry) :
    ∃ src fname,
      entry.range.source = some src ∧ src.filename = some fname ∧
      getPythonInterpreterSourceRange lineno_for_offset w =
        ⟨some ⟨stackTraceText lineno_for_offset (pythonCallstack w), some fname,
            size_t_add src.starting_line_no (lineno_for_offset src entry.range.start)⟩,
          0, (stackTraceText lineno_for_offset (pythonCallstack w)).utf8ByteSize⟩ := by
  have hsome : (knownFilename entry).isSome = true := by
    have := List.find?_some hfirst
    simpa using this
  obtain ⟨fname, hfname⟩ := Option.isSome_iff_exists.mp hsome
  have hsrc : ∃ src, entry.range.source = some src ∧ src.filename = some fname := by
    unfold knownFilename at hfname
    cases hs : entry.range.source with
    | none => rw [hs] at hfname; cases hfname
    | some src =>
      rw [hs] at hfname
      exact ⟨src, rfl, hfname⟩
  obtain ⟨src, hs, hf⟩ := hsrc
  refine ⟨src, fname, hs, hf, ?_⟩
  have h1 := foldl_body_first lineno_for_offset (pythonCallstack w) ⟨none, 0, ""⟩ entry rfl hfirst
  have h2 := foldl_body_stack_trace lineno_for_offset (pythonCallstack w) ⟨none, 0, ""⟩
  have hline : entryLine lineno_for_offset entry =
      size_t_add src.starting_line_no (lineno_for_offset src entry.range.start) := by
    unfold entryLine
    rw [hs]
  unfold getPythonInterpreterSourceRange
  simp only [h1.1, h1.2, h2, hfname, hline, String.empty_append]

/-- C7: for every call stack with at least one entry whose source has a known filename,
the source range returned by `getPythonInterpreterSourceRange` has a source whose
filename and starting line are those of the first such entry in stack order (the line is
the starting line of the source of that entry plus the line offset of the start of its
range, computed on `size_t`, which is the plain sum whenever that fits), whose text is
the whole trace text (one line per entry of known filename, in stack order, the other
entries contributing nothing), and the range runs from offset 0 to the size of that
text. -/
theorem C7_source_range_of_first_known_entry (w : World)
    (hknown : ∃ e ∈ pythonCallstack w, (knownFilename e).isSome = true) :
    ∃ entry src fname,
      (pythonCallstack w).find? (fun e => (knownFilename e).isSome) = some entry ∧
      entry.range.source = some src ∧ src.filename = some fname ∧
      getPythonInterpreterSourceRange lineno_for_offset w =
        ⟨some ⟨stackTraceText lineno_for_offset (pythonCallstack w), some fname,
            size_t_add src.starting_line_no (lineno_for_offset src entry.range.start)⟩,
          0, (stackTraceText lineno_for_offset (pythonCallstack w)).utf8ByteSize⟩ ∧
      (src.starting_line_no + lineno_for_offset src entry.range.start < SIZE_T_RANGE →
        size_t_add src.starting_line_no (lineno_for_offset src entry.range.start) =
          src.starting_line_no + lineno_for_offset src entry.range.start) := by
  have hsome : ((pythonCallstack w).find? (fun e => (knownFilename e).isSome)).isSome = true := by
    rw [List.find?_isSome]
    exact hknown
  obtain ⟨entry, hfirst⟩ := Option.isSome_iff_exists.mp hsome
  obtain ⟨src, fname, hs, hf, hres⟩ := source_range_of_first lineno_for_offset w entry hfirst
  refine ⟨entry, src, fname, hfirst, hs, hf, hres, ?_⟩
  intro hlt
  unfold size_t_add
  exact Nat.mod_eq_of_lt hlt

/-- C8: provenance capture degrades instead of failing. When no call-stack provider is
registered, and more generally for every call stack none of whose entries has a source
with a known filename, `getPythonInterpreterSourceRange` returns the range `[0, 0)` over
a source with empty text, no filename and starting line 0. -/
theorem C8_unknown_location_when_no_known_entry (w : World) :
    (w.python_callstack_fn = none →
      getPythonInterpreterSourceRange lineno_for_offset w = ⟨some ⟨"", none, 0⟩, 0, 0⟩) ∧
    ((∀ e ∈ pythonCallstack w, knownFilename e = none) →
      getPythonInterpreterSourceRange lineno_for_offset w = ⟨some ⟨"", none, 0⟩, 0, 0⟩) := by
  have key : (∀ e ∈ pythonCallstack w, knownFilename e = none) →
      getPythonInterpreterSourceRange lineno_for_offset w = ⟨some ⟨"", none, 0⟩, 0, 0⟩ := by
    intro h
    unfold getPythonInterpreterSourceRange
    simp only [foldl_body_unknown lineno_for_offset (pythonCallstack w) h]
    rfl
  refine ⟨?_, key⟩
  intro hnone
  apply key
  intro e he
  unfold pythonCallstack at he
  rw [hnone] at he
  cases he

theorem C7_witness :
    (∃ e ∈ pythonCallstack mixed_world, (knownFilename e).isSome = true) ∧
      (pythonCallstack mixed_world).find? (fun e => (knownFilename e).isSome) =
        some ⟨"forward", ⟨some ⟨"forward", some "model.py", 12⟩, 0, 7⟩⟩ ∧
      stackTraceText sample_lineno_for_offset (pythonCallstack mixed_world) =
        "model.py(12): forward\ntrain.py(41): run\n" ∧
      getPythonInterpreterSourceRange sample_lineno_for_offset mixed_world =
        ⟨some ⟨"model.py(12): forward\ntrain.py(41): run\n", some "model.py", 12⟩, 0, 40⟩ ∧
      getPythonInterpreterSourceRange sample_lineno_for_offset sample_world =
        ⟨some ⟨"model.py(12): forward\ntrain.py(40): main\n", some "model.py", 12⟩, 0, 41⟩ ∧
      ∃ entry src fname,
        (pythonCallstack mixed_world).find? (fun e => (knownFilename e).isSome) =
          some entry ∧
        entry.range.source = some src ∧
        src.filename = some fname ∧
        getPythonInterpreterSourceRange sample_lineno_for_offset mixed_world =
          ⟨some ⟨stackTraceText sample_lineno_for_offset (pythonCallstack mixed_world),
              some fname,
              size_t_add src.starting_line_no
                (sample_lineno_for_offset src entry.range.start)⟩,
            0,
            (stackTraceText sample_lineno_for_offset
              (pythonCallstack mixed_world)).utf8ByteSize⟩ ∧
        (src.starting_line_no + sample_lineno_for_offset src entry.range.start
            < SIZE_T_RANGE →
          size_t_add src.starting_line_no
              (sample_lineno_for_offset src entry.range.start) =
            src.starting_line_no + sample_lineno_for_offset src entry.range.start) :=
  ⟨by decide, by decide, by decide, by decide, by decide,
    C7_source_range_of_first_known_entry sample_lineno_for_offset mixed_world (by decide)⟩

theorem C8_witness :
    bare_world.python_callstack_fn = none ∧
      (∀ e ∈ pythonCallstack unknown_world, knownFilename e = none) ∧
      getPythonInterpreterSourceRange sample_lineno_for_offset bare_world =
        ⟨some ⟨"", none, 0⟩, 0, 0⟩ ∧
      getPythonInterpreterSourceRange sample_lineno_for_offset unknown_world =
        ⟨some ⟨"", none, 0⟩, 0, 0⟩ :=
  ⟨rfl, by decide,
    (C8_unknown_location_when_no_known_entry sample_lineno_for_offset bare_world).1 rfl,
    (C8_unknown_location_when_no_known_entry sample_lineno_for_offset unknown_world).2
      (by decide)⟩

end Provenance

section KeyedEntryPoint

open createGraphByTracingWithDict

theorem compact_foldl_eq (d : dict) (names acc : List String) :
    names.foldl
      (fun compact argument_name =>
        if d.contains argument_name then compact ++ [argument_name] else compact) acc =
      acc ++ names.filter (fun name => d.contains name) := by
  induction names generalizing acc with
  | nil => simp
  | cons n rest ih =>
    rw [List.foldl_cons, ih]
    cases h : d.contains n <;> simp [List.filter_cons, h]

theorem compact_argument_names_eq_filter (d : dict) (names : List String) :
    compact_argument_names d names = names.filter (fun name => d.contains name) := by
  unfold compact_argument_names
  rw [compact_foldl_eq]
  simp

theorem inner_body_other (api : PyBind) (name s : String) (stack : Stack) (v : PyObject)
    (h : s ≠ name) : inner_body api name stack (PyObject.str s, v) = Except.ok stack := by
  unfold inner_body
  simp [cast_string, h, bind, Except.bind, pure, Except.pure]

theorem inner_body_match (api : PyBind) (name : String) (stack : Stack) (v : PyObject)
    (iv : IValue) (h : convert api v = Except.ok iv) :
    inner_body api name stack (PyObject.str name, v) = Except.ok (stack ++ [iv]) := by
  unfold inner_body
  simp [cast_string, h, bind, Except.bind, pure, Except.pure]

theorem foldlM_inner_absent (api : PyBind) (name : String)
    (l : List (PyObject × PyObject))
    (hkeys : ∀ it ∈ l, ∃ s, it.1 = PyObject.str s)
    (habs : ∀ it ∈ l, it.1 ≠ PyObject.str name) (stack : Stack) :
    l.foldlM (inner_body api name) stack = Except.ok stack := by
  induction l generalizing stack with
  | nil => rfl
  | cons it rest ih =>
    obtain ⟨k, v⟩ := it
    obtain ⟨s, hs⟩ := hkeys (k, v) (List.mem_cons_self _ _)
    simp only at hs
    subst hs
    have hne : s ≠ name := fun h => habs (PyObject.str s, v) (List.mem_cons_self _ _) (by rw [h])
    rw [List.foldlM_cons, inner_body_other api name s stack v hne]
    exact ih (fun x hx => hkeys x (List.mem_cons_of_mem _ hx))
      (fun x hx => habs x (List.mem_cons_of_mem _ hx)) stack

theorem foldlM_inner_present (api : PyBind) (name : String)
    (l : List (PyObject × PyObject))
    (hkeys : ∀ it ∈ l, ∃ s, it.1 = PyObject.str s)
    (hnd : (l.map Prod.fst).Nodup) (v : PyObject) (iv : IValue)
    (hmem : (PyObject.str name, v) ∈ l) (hconv : convert api v = Except.ok iv)
    (stack : Stack) :
    l.foldlM (inner_body api name) stack = Except.ok (stack ++ [iv]) := by
  induction l generalizing stack with
  | nil => cases hmem
  | cons it rest ih =>
    obtain ⟨k, v1⟩ := it
    obtain ⟨s, hs⟩ := hkeys (k, v1) (List.mem_cons_self _ _)
    simp only at hs
    subst hs
    rw [List.map_cons, List.nodup_cons] at hnd
    rw [List.foldlM_cons]
    rcases List.mem_cons.mp hmem with heq | htail
    · have h1 : name = s := by injection heq with h1 _; injection h1
      have h2 : v = v1 := by injection heq
      subst h1; subst h2
      rw [inner_body_match api name stack v iv hconv]
      apply foldlM_inner_absent api name rest
        (fun x hx => hkeys x (List.mem_cons_of_mem _ hx))
      intro x hx hk
      exact hnd.1 (List.mem_map.mpr ⟨x, hx, hk⟩)
    · have hne : s ≠ name := by
        intro h
        subst h
        exact hnd.1 (List.mem_map.mpr ⟨(PyObject.str s, v), htail, rfl⟩)
      rw [inner_body_other api name s stack v1 hne]
      exact ih (fun x hx => hkeys x (List.mem_cons_of_mem _ hx)) hnd.2 htail stack

theorem foldlM_outer (api : PyBind) (d : dict)
    (hkeys : ∀ it ∈ d.items, ∃ s, it.1 = PyObject.str s) (names : List String)
    (hall : ∀ n ∈ names, ∃ v iv, (PyObject.str n, v) ∈ d.items ∧
      convert api v = Except.ok iv) (acc : Stack) :
    ∃ L : Stack,
      names.foldlM (push_matching api d) acc = Except.ok (acc ++ L) ∧
      List.Forall₂
        (fun n iv => ∃ v, (PyObject.str n, v) ∈ d.items ∧ convert api v = Except.ok iv)
        names L := by
  induction names generalizing acc with
  | nil => exact ⟨[], by simp [List.foldlM_nil, pure, Except.pure], List.Forall₂.nil⟩
  | cons n rest ih =>
    obtain ⟨v, iv, hmem, hconv⟩ := hall n (List.mem_cons_self _ _)
    obtain ⟨L, hL, hR⟩ := ih (fun x hx => hall x (List.mem_cons_of_mem _ hx)) (acc ++ [iv])
    refine ⟨iv :: L, ?_, List.Forall₂.cons ⟨v, hmem, hconv⟩ hR⟩
    rw [List.foldlM_cons]
    have hstep : push_matching api d acc n = Except.ok (acc ++ [iv]) := by
      unfold push_matching
      exact foldlM_inner_present api n d.items hkeys d.unique_keys v iv hmem hconv acc
    rw [hstep]
    simpa [bind, Except.bind] using hL

theorem contains_iff_mem (d : dict) (name : String) :
    d.contains name = true ↔ ∃ v, (PyObject.str name, v) ∈ d.items := by
  unfold dict.contains
  rw [List.any_eq_true]
  constructor
  · rintro ⟨⟨k, v⟩, hmem, hk⟩
    have : k = PyObject.str name := by simpa using hk
    subst this
    exact ⟨v, hmem⟩
  · rintro ⟨v, hmem⟩
    exact ⟨(PyObject.str name, v), hmem, by simp⟩

theorem M.lift_ok_bind {α β : Type} (a : α) (f : α → M β) :
    (M.lift (Except.ok a) >>= f) = f a := by
  funext w
  rfl

theorem M.read_bind {α : Type} (d : py_dict) (f : dict → M α) (w : World) :
    (d.read >>= f) w = f (w.dict_at d) w := rfl

theorem keyed_entry_apply (trace0 : TraceFn) (api : PyBind)
    (func : py_function) (inputs_dict : py_dict) (trace_inputs : Stack)
    (var_name_lookup_fn : py_function) (strict force_outplace : Bool)
    (self : Option Module) (argument_names : List String) (w : World) :
    createGraphByTracingWithDict trace0 api func inputs_dict trace_inputs
        var_name_lookup_fn strict force_outplace self argument_names w =
      match compact_trace_inputs api (w.dict_at inputs_dict)
          (compact_argument_names (w.dict_at inputs_dict) argument_names) with
      | Except.error e => (Except.error e, w)
      | Except.ok compact_inputs =>
        M.bind
          (trace0 compact_inputs (traced_fn api func inputs_dict)
            (lookup_fn_adapter api var_name_lookup_fn) strict force_outplace self
            (compact_argument_names (w.dict_at inputs_dict) argument_names))
          (fun outs => M.pure (outs.1.graph, outs.2)) w := by
  unfold createGraphByTracingWithDict
  rw [M.read_bind, M.read_bind]
  show (M.lift _ >>= _) w = _
  cases compact_trace_inputs api (w.dict_at inputs_dict)
      (compact_argument_names (w.dict_at inputs_dict) argument_names) with
  | error e => rfl
  | ok compact_inputs => rfl

/-- C1: for every ordering of argument names and every mapping with string keys in which
the values of the names of the ordering all convert, `createGraphByTracingWithDict`
calls `tracer::trace` with exactly the names of the ordering that are keys of the
mapping, in declared order, and with an input list of the same length whose i-th element
is the converted mapping value of the i-th kept name; its own result is the result of
that call with the session replaced by its graph. The mapping is the dictionary object
behind `inputs_dict` in the state the entry point is called in. -/
theorem C1_keyed_inputs_are_filtered_ordering (trace : TraceFn) (api : PyBind)
    (func : py_function) (inputs_dict : py_dict) (trace_inputs : Stack)
    (var_name_lookup_fn : py_function) (strict force_outplace : Bool)
    (self : Option Module) (argument_names : List String) (w : World)
    (hkeys : ∀ it ∈ (w.dict_at inputs_dict).items, ∃ s, it.1 = PyObject.str s)
    (hconv : ∀ it ∈ (w.dict_at inputs_dict).items, ∀ s, it.1 = PyObject.str s →
      s ∈ argument_names → ∃ iv, convert api it.2 = Except.ok iv) :
    ∃ compact_inputs : Stack,
      compact_inputs.length =
        (argument_names.filter (fun name => (w.dict_at inputs_dict).contains name)).length ∧
      (∀ (i : Nat)
          (h1 : i < (argument_names.filter
            (fun name => (w.dict_at inputs_dict).contains name)).length)
          (h2 : i < compact_inputs.length),
        ∃ value,
          (PyObject.str
              ((argument_names.filter
                (fun name => (w.dict_at inputs_dict).contains name)).get ⟨i, h1⟩),
            value) ∈ (w.dict_at inputs_dict).items ∧
          convert api value = Except.ok (compact_inputs.get ⟨i, h2⟩)) ∧
      createGraphByTracingWithDict trace api func inputs_dict trace_inputs var_name_lookup_fn
          strict force_outplace self argument_names w =
        M.bind
          (trace compact_inputs (traced_fn api func inputs_dict)
            (lookup_fn_adapter api var_name_lookup_fn) strict force_outplace self
            (argument_names.filter (fun name => (w.dict_at inputs_dict).contains name)))
          (fun outs => M.pure (outs.1.graph, outs.2)) w := by
  have hall : ∀ n ∈ argument_names.filter (fun name => (w.dict_at inputs_dict).contains name),
      ∃ v iv, (PyObject.str n, v) ∈ (w.dict_at inputs_dict).items ∧
        convert api v = Except.ok iv := by
    intro n hn
    rw [List.mem_filter] at hn
    obtain ⟨v, hv⟩ := (contains_iff_mem (w.dict_at inputs_dict) n).mp hn.2
    obtain ⟨iv, hiv⟩ := hconv (PyObject.str n, v) hv n rfl hn.1
    exact ⟨v, iv, hv, hiv⟩
  obtain ⟨L, hL, hR⟩ := foldlM_outer api (w.dict_at inputs_dict) hkeys _ hall []
  rw [List.nil_append] at hL
  have hR2 := (List.forall₂_iff_get.mp hR)
  refine ⟨L, hR2.1.symm, ?_, ?_⟩
  · intro i h1 h2
    exact hR2.2 i h1 h2
  · rw [keyed_entry_apply]
    simp only [compact_argument_names_eq_filter]
    have hc : compact_trace_inputs api (w.dict_at inputs_dict)
        (argument_names.filter (fun name => (w.dict_at inputs_dict).contains name)) =
        Except.ok L := hL
    rw [hc]

theorem C1_witness :
    (∀ it ∈ (sample_world.dict_at sample_mapping).items, ∃ s, it.1 = PyObject.str s) ∧
      (∀ it ∈ (sample_world.dict_at sample_mapping).items, ∀ s, it.1 = PyObject.str s →
        s ∈ ["a", "b", "c"] → ∃ iv, convert sample_api it.2 = Except.ok iv) ∧
      ["a", "b", "c"].filter
          (fun name => (sample_world.dict_at sample_mapping).contains name) = ["b", "c"] ∧
      compact_trace_inputs sample_api (sample_world.dict_at sample_mapping)
        (compact_argument_names (sample_world.dict_at sample_mapping) ["a", "b", "c"]) =
          Except.ok [⟨2⟩, ⟨3⟩] ∧
      ∃ compact_inputs : Stack,
        compact_inputs.length =
          (["a", "b", "c"].filter
            (fun name => (sample_world.dict_at sample_mapping).contains name)).length ∧
        (∀ (i : Nat)
            (h1 : i < (["a", "b", "c"].filter
              (fun name => (sample_world.dict_at sample_mapping).contains name)).length)
            (h2 : i < compact_inputs.length),
          ∃ value,
            (PyObject.str
                ((["a", "b", "c"].filter
                  (fun name =>
                    (sample_world.dict_at sample_mapping).contains name)).get ⟨i, h1⟩),
              value) ∈ (sample_world.dict_at sample_mapping).items ∧
            convert sample_api value = Except.ok (compact_inputs.get ⟨i, h2⟩)) ∧
        createGraphByTracingWithDict trace sample_api sample_func sample_mapping []
            sample_lookup false false none ["a", "b", "c"] sample_world =
          M.bind
            (trace compact_inputs (traced_fn sample_api sample_func sample_mapping)
              (lookup_fn_adapter sample_api sample_lookup) false false none
              (["a", "b", "c"].filter
                (fun name => (sample_world.dict_at sample_mapping).contains name)))
            (fun outs => M.pure (outs.1.graph, outs.2)) sample_world := by
  have h1 : ∀ it ∈ (sample_world.dict_at sample_mapping).items,
      ∃ s, it.1 = PyObject.str s := by
    intro it hit
    have hit1 : it ∈ sample_dict.items := hit
    simp only [sample_dict, List.mem_cons, List.mem_singleton, List.not_mem_nil, or_false]
      at hit1
    rcases hit1 with rfl | rfl <;> exact ⟨_, rfl⟩
  have h2 : ∀ it ∈ (sample_world.dict_at sample_mapping).items, ∀ s,
      it.1 = PyObject.str s → s ∈ ["a", "b", "c"] →
      ∃ iv, convert sample_api it.2 = Except.ok iv := by
    intro it hit s _ _
    have hit1 : it ∈ sample_dict.items := hit
    simp only [sample_dict, List.mem_cons, List.mem_singleton, List.not_mem_nil, or_false]
      at hit1
    rcases hit1 with rfl | rfl <;> exact ⟨_, rfl⟩
  exact ⟨h1, h2, by decide, rfl,
    C1_keyed_inputs_are_filtered_ordering trace sample_api sample_func sample_mapping []
      sample_lookup false false none ["a", "b", "c"] sample_world h1 h2⟩

end KeyedEntryPoint

section Closures

theorem M.bind_apply {α β : Type} (x : M α) (f : α → M β) (w : World) :
    (x >>= f) w =
      match x w with
      | (Except.ok a, w1) => f a w1
      | (Except.error e, w1) => (Except.error e, w1) := rfl

theorem M.lift_apply {α : Type} (x : Except Exception α) (w : World) :
    M.lift x w = (x, w) := rfl

theorem check_result_apply (api : PyBind) (out : PyObject) (w1 : World) :
    (if out = PyObject.None then
        (M.throw (Exception.c10_Error no_output_msg) : M Stack)
      else do
        let v ← M.lift (api.toTypeInferredIValue out)
        pure [v]) w1 = returned_stack api (Except.ok out, w1) := by
  unfold returned_stack
  by_cases h : out = PyObject.None
  · simp only [h, if_true]
    rfl
  · simp only [h, if_false]
    rw [M.bind_apply, M.lift_apply]
    cases api.toTypeInferredIValue out <;> rfl

theorem keyed_traced_fn_eq (api : PyBind) (func : py_function) (d : py_dict)
    (inputs : Stack) (w : World) :
    createGraphByTracingWithDict.traced_fn api func d inputs w =
      returned_stack api (func [] (w.dict_at d).items w) := by
  unfold createGraphByTracingWithDict.traced_fn
  rw [M.read_bind, M.bind_apply]
  rcases h : func [] (w.dict_at d).items w with ⟨r, w1⟩
  cases r with
  | error e => rfl
  | ok out => exact check_result_apply api out w1

theorem unpack_map_some (args : List PyObject) :
    createGraphByTracing.unpack (args.map some) = Except.ok args := by
  induction args with
  | nil => rfl
  | cons a rest ih =>
    simp only [List.map_cons, createGraphByTracing.unpack, ih]
    rfl

theorem assign_loop_inv (api : PyBind) (inputs : Stack) (args : List PyObject)
    (hlen : args.length = inputs.length)
    (hcast : ∀ (i : Nat) (h1 : i < inputs.length) (h2 : i < args.length),
      api.cast (inputs.get ⟨i, h1⟩) = Except.ok (args.get ⟨i, h2⟩))
    (k : Nat) (hk : k ≤ inputs.length) :
    ∃ l : List (Option PyObject),
      (List.range k).foldlM (createGraphByTracing.assign api inputs)
          (List.replicate inputs.length none) = Except.ok l ∧
        l.length = inputs.length ∧
        ∀ i, i < k → l[i]? = (args[i]?).map some := by
  induction k with
  | zero =>
    refine ⟨List.replicate inputs.length none, rfl, by simp, ?_⟩
    intro i hi
    omega
  | succ k ih =>
    obtain ⟨l, hl, hlen_l, hget⟩ := ih (by omega)
    have hk1 : k < inputs.length := by omega
    have hk2 : k < args.length := by omega
    refine ⟨l.set k (some (args.get ⟨k, hk2⟩)), ?_, by simp [hlen_l], ?_⟩
    · rw [List.range_succ, List.foldlM_append, hl]
      have hstep : createGraphByTracing.assign api inputs l k =
          Except.ok (l.set k (some (args.get ⟨k, hk2⟩))) := by
        unfold createGraphByTracing.assign
        rw [List.getElem?_eq_getElem hk1]
        have := hcast k hk1 hk2
        simp only [List.get_eq_getElem] at this
        simp only [this]
        rfl
      simp [hstep, bind, Except.bind, pure, Except.pure]
    · intro i hi
      by_cases hik : i = k
      · subst hik
        rw [List.getElem?_set_self (by omega), List.getElem?_eq_getElem hk2]
        rfl
      · rw [List.getElem?_set_ne (fun h => hik h.symm)]
        exact hget i (by omega)

theorem assign_loop (api : PyBind) (inputs : Stack) (args : List PyObject)
    (hlen : args.length = inputs.length)
    (hcast : ∀ (i : Nat) (h1 : i < inputs.length) (h2 : i < args.length),
      api.cast (inputs.get ⟨i, h1⟩) = Except.ok (args.get ⟨i, h2⟩)) :
    (List.range inputs.length).foldlM (createGraphByTracing.assign api inputs)
        (List.replicate inputs.length none) = Except.ok (args.map some) := by
  obtain ⟨l, hl, hlen_l, hget⟩ := assign_loop_inv api inputs args hlen hcast inputs.length
    (Nat.le_refl _)
  rw [hl]
  congr 1
  apply List.ext_getElem?
  intro i
  by_cases hi : i < inputs.length
  · rw [hget i hi, List.getElem?_map]
  · rw [List.getElem?_eq_none (by omega), List.getElem?_map,
      List.getElem?_eq_none (by omega)]
    rfl

theorem positional_traced_fn_eq (api : PyBind) (func : py_function) (inputs : Stack)
    (args : List PyObject) (hlen : args.length = inputs.length)
    (hcast : ∀ (i : Nat) (h1 : i < inputs.length) (h2 : i < args.length),
      api.cast (inputs.get ⟨i, h1⟩) = Except.ok (args.get ⟨i, h2⟩)) (w : World) :
    createGraphByTracing.traced_fn api func inputs w =
      returned_stack api (func args [] w) := by
  unfold createGraphByTracing.traced_fn
  simp only [assign_loop api inputs args hlen hcast, M.lift_ok_bind, unpack_map_some]
  rw [M.bind_apply]
  rcases h : func args [] w with ⟨r, w1⟩
  cases r with
  | error e => rfl
  | ok out => exact check_result_apply api out w1

theorem returned_stack_none (api : PyBind) (w1 : World) :
    returned_stack api (Except.ok PyObject.None, w1) =
      (Except.error (Exception.c10_Error no_output_msg), w1) := by
  simp [returned_stack]

theorem returned_stack_ok_inv (api : PyBind) (r : Except Exception PyObject × World)
    (outs : Stack) (w2 : World) (h : returned_stack api r = (Except.ok outs, w2)) :
    ∃ out, r = (Except.ok out, w2) ∧ out ≠ PyObject.None ∧ outs.length = 1 := by
  obtain ⟨r, w1⟩ := r
  cases r with
  | error e => simp [returned_stack] at h
  | ok out =>
    unfold returned_stack at h
    by_cases hn : out = PyObject.None
    · simp [hn] at h
    · simp only [hn, if_false] at h
      cases hv : api.toTypeInferredIValue out with
      | error e => rw [hv] at h; simp at h
      | ok v =>
        rw [hv] at h
        simp only [Prod.mk.injEq, Except.ok.injEq] at h
        refine ⟨out, by rw [h.2], hn, ?_⟩
        rw [← h.1]
        rfl

theorem positional_traced_fn_ok_inv (api : PyBind) (func : py_function) (inputs : Stack)
    (w : World) (outs : Stack) (w2 : World)
    (h : createGraphByTracing.traced_fn api func inputs w = (Except.ok outs, w2)) :
    ∃ args out, func args [] w = (Except.ok out, w2) ∧ out ≠ PyObject.None ∧
      outs.length = 1 := by
  unfold createGraphByTracing.traced_fn at h
  rw [M.bind_apply, M.lift_apply] at h
  cases hloop : (List.range inputs.length).foldlM (createGraphByTracing.assign api inputs)
      (List.replicate inputs.length none) with
  | error e => rw [hloop] at h; simp at h
  | ok py_inputs =>
    rw [hloop] at h
    simp only at h
    rw [M.bind_apply, M.lift_apply] at h
    cases hun : createGraphByTracing.unpack py_inputs with
    | error e => rw [hun] at h; simp at h
    | ok args =>
      rw [hun] at h
      simp only at h
      rw [M.bind_apply] at h
      rcases hf : func args [] w with ⟨r, w1⟩
      rw [hf] at h
      cases r with
      | error e => simp at h
      | ok out =>
        simp only at h
        rw [check_result_apply] at h
        obtain ⟨out1, h1, h2, h3⟩ := returned_stack_ok_inv api _ outs w2 h
        exact ⟨args, out1, hf.trans h1, h2, h3⟩

theorem trace_of_inactive (inputs : Stack) (traced_fn : Stack → M Stack)
    (lk : Variable → M String) (strict force_outplace : Bool) (self : Option Module)
    (names : List String) (w : World) (h : w.tracing_state = none) :
    trace inputs traced_fn lk strict force_outplace self names w =
      match traced_fn inputs
          (w.setTracingState (some (trace.new_session inputs strict force_outplace names))) with
      | (Except.error e, w1) => (Except.error e, w1.setTracingState none)
      | (Except.ok out_stack, w1) =>
        match trace.outputs
            (w1.tracing_state.getD (trace.new_session inputs strict force_outplace names))
            out_stack with
        | Except.error e => (Except.error e, w1.setTracingState none)
        | Except.ok vs =>
          (Except.ok
            (TracingState.mk
              { (w1.tracing_state.getD
                  (trace.new_session inputs strict force_outplace names)).graph with
                outputs := vs }
              (w1.tracing_state.getD
                (trace.new_session inputs strict force_outplace names)).value_table
              (w1.tracing_state.getD
                (trace.new_session inputs strict force_outplace names)).strict
              (w1.tracing_state.getD
                (trace.new_session inputs strict force_outplace names)).force_outplace,
              out_stack),
            w1.setTracingState none) := by
  unfold trace
  simp only [h]

theorem trace_error (inputs : Stack) (traced_fn : Stack → M Stack)
    (lk : Variable → M String) (strict force_outplace : Bool) (self : Option Module)
    (names : List String) (w w1 : World) (e : Exception) (h : w.tracing_state = none)
    (hfn : traced_fn inputs
        (w.setTracingState (some (trace.new_session inputs strict force_outplace names))) =
      (Except.error e, w1)) :
    trace inputs traced_fn lk strict force_outplace self names w =
      (Except.error e, w1.setTracingState none) := by
  rw [trace_of_inactive _ _ _ _ _ _ _ _ h, hfn]

theorem trace_ok_outputs (inputs : Stack) (traced_fn : Stack → M Stack)
    (lk : Variable → M String) (strict force_outplace : Bool) (self : Option Module)
    (names : List String) (w w2 : World) (st : TracingState) (outs : Stack)
    (h : trace inputs traced_fn lk strict force_outplace self names w =
      (Except.ok (st, outs), w2)) :
    ∃ w0 w1, traced_fn inputs w0 = (Except.ok outs, w1) := by
  cases hts : w.tracing_state with
  | some s =>
    unfold trace at h
    simp [hts] at h
  | none =>
    rw [trace_of_inactive _ _ _ _ _ _ _ _ hts] at h
    rcases hfn : traced_fn inputs
        (w.setTracingState (some (trace.new_session inputs strict force_outplace names)))
      with ⟨r, w1⟩
    rw [hfn] at h
    cases r with
    | error e => simp at h
    | ok out_stack =>
      simp only at h
      cases hout : trace.outputs
          (w1.tracing_state.getD (trace.new_session inputs strict force_outplace names))
          out_stack with
      | error e => rw [hout] at h; simp at h
      | ok vs =>
        rw [hout] at h
        simp only [Prod.mk.injEq, Except.ok.injEq] at h
        exact ⟨_, w1, by rw [hfn, h.1.2]⟩

theorem declare_inputs_spec (names : List String) (inputs : List IValue) (st : TracingState) :
    (trace.declare_inputs names inputs st).graph.inputs.length =
        st.graph.inputs.length + inputs.length ∧
      ∃ vs : List Value,
        vs.length = inputs.length ∧
          (trace.declare_inputs names inputs st).value_table =
            (inputs.zip vs).reverse ++ st.value_table ∧
          (trace.declare_inputs names inputs st).graph.inputs.map Prod.fst =
            st.graph.inputs.map Prod.fst ++ vs := by
  induction inputs generalizing st with
  | nil => exact ⟨rfl, [], by simp [trace.declare_inputs]⟩
  | cons input rest ih =>
    unfold trace.declare_inputs
    obtain ⟨h1, vs, h2, h3, h4⟩ := ih
      { st with
        graph := { st.graph with
          inputs := st.graph.inputs ++
            [((⟨st.graph.next_unique⟩ : Value),
              (names[st.graph.inputs.length]?).getD "")]
          next_unique := st.graph.next_unique + 1 }
        value_table := (input, ⟨st.graph.next_unique⟩) :: st.value_table }
    refine ⟨?_, ⟨st.graph.next_unique⟩ :: vs, ?_, ?_, ?_⟩
    · simp only [h1]
      simp
      omega
    · simp [h2]
    · simp only [h3]
      simp
    · simp only [h4]
      simp

theorem returned_stack_world (api : PyBind) (r : Except Exception PyObject × World) :
    (returned_stack api r).2 = r.2 := by
  obtain ⟨r, w1⟩ := r
  cases r with
  | error e => rfl
  | ok out =>
    unfold returned_stack
    by_cases hn : out = PyObject.None
    · simp [hn]
    · simp only [hn, if_false]
      cases api.toTypeInferredIValue out <;> rfl

theorem bind_pure_world {α β : Type} (x : M α) (g : α → β) (w : World) :
    (M.bind x (fun a => M.pure (g a)) w).2 = (x w).2 := by
  unfold M.bind
  rcases x w with ⟨r, w1⟩
  cases r <;> rfl

theorem trace_world_of_inactive (inputs : Stack) (traced_fn : Stack → M Stack)
    (lk : Variable → M String) (strict force_outplace : Bool) (self : Option Module)
    (names : List String) (w : World) (h : w.tracing_state = none) :
    (trace inputs traced_fn lk strict force_outplace self names w).2 =
      (traced_fn inputs
        (w.setTracingState
          (some (trace.new_session inputs strict force_outplace names)))).2.setTracingState
        none := by
  rw [trace_of_inactive _ _ _ _ _ _ _ _ h]
  rcases traced_fn inputs
      (w.setTracingState (some (trace.new_session inputs strict force_outplace names)))
    with ⟨r, w1⟩
  cases r with
  | error e => rfl
  | ok out_stack =>
    simp only
    cases trace.outputs
        (w1.tracing_state.getD (trace.new_session inputs strict force_outplace names))
        out_stack <;> rfl

theorem trace_world_of_active (inputs : Stack) (traced_fn : Stack → M Stack)
    (lk : Variable → M String) (strict force_outplace : Bool) (self : Option Module)
    (names : List String) (w : World) (st : TracingState) (h : w.tracing_state = some st) :
    (trace inputs traced_fn lk strict force_outplace self names w).2 =
      w.setTracingState none := by
  unfold trace
  simp only [h]

theorem keyed_entry_world (api : PyBind) (func : py_function) (inputs_dict : py_dict)
    (trace_inputs : Stack) (var_name_lookup_fn : py_function)
    (strict force_outplace : Bool) (self : Option Module) (argument_names : List String)
    (w : World) :
    (createGraphByTracingWithDict trace api func inputs_dict trace_inputs
        var_name_lookup_fn strict force_outplace self argument_names w).2 = w ∨
      (createGraphByTracingWithDict trace api func inputs_dict trace_inputs
        var_name_lookup_fn strict force_outplace self argument_names w).2 =
        w.setTracingState none ∨
      ∃ w0, w0.dicts = w.dicts ∧
        (createGraphByTracingWithDict trace api func inputs_dict trace_inputs
          var_name_lookup_fn strict force_outplace self argument_names w).2 =
          (func [] (w0.dict_at inputs_dict).items w0).2.setTracingState none := by
  rw [keyed_entry_apply]
  cases hc : createGraphByTracingWithDict.compact_trace_inputs api (w.dict_at inputs_dict)
      (createGraphByTracingWithDict.compact_argument_names (w.dict_at inputs_dict)
        argument_names) with
  | error e => exact Or.inl rfl
  | ok compact_inputs =>
    right
    simp only
    rw [bind_pure_world]
    cases hts : w.tracing_state with
    | some st => exact Or.inl (trace_world_of_active _ _ _ _ _ _ _ w st hts)
    | none =>
      right
      refine ⟨w.setTracingState (some (trace.new_session compact_inputs strict force_outplace
        (createGraphByTracingWithDict.compact_argument_names (w.dict_at inputs_dict)
          argument_names))), rfl, ?_⟩
      rw [trace_world_of_inactive _ _ _ _ _ _ _ w hts, keyed_traced_fn_eq,
        returned_stack_world]

/-- C2: in the keyed convention the closure handed to the tracer calls the callable, for
every input stack and in whatever state the tracer runs it, with no positional argument
and with exactly the items of the mapping behind `inputs_dict` as keyword arguments,
whatever the ordering of argument names, and hands it the state untouched. The entry
point itself writes nothing: when a conversion fails the state, the mapping included, is
as it was; otherwise `tracer::trace` starts from the state the entry point was called
in and the state it ends in is the state the entry point ends in. Run by the trace
driver from a state without a session, the callable receives the items the mapping had
when the entry point was called, and the state after the call is the one the callable
left, with the session registry cleared; so the mapping behind `inputs_dict` is after
the call what it was before, for every callable that does not itself change it. -/
theorem C2_callable_receives_original_mapping (api : PyBind)
    (func : py_function) (inputs_dict : py_dict) (trace_inputs : Stack)
    (var_name_lookup_fn : py_function) (strict force_outplace : Bool)
    (self : Option Module) (argument_names : List String) :
    (∀ (inputs : Stack) (w : World),
      createGraphByTracingWithDict.traced_fn api func inputs_dict inputs w =
        returned_stack api (func [] (w.dict_at inputs_dict).items w)) ∧
    (∀ (trace0 : TraceFn) (w : World),
      createGraphByTracingWithDict trace0 api func inputs_dict trace_inputs
          var_name_lookup_fn strict force_outplace self argument_names w =
        match createGraphByTracingWithDict.compact_trace_inputs api (w.dict_at inputs_dict)
            (createGraphByTracingWithDict.compact_argument_names (w.dict_at inputs_dict)
              argument_names) with
        | Except.error e => (Except.error e, w)
        | Except.ok compact_inputs =>
          M.bind
            (trace0 compact_inputs
              (createGraphByTracingWithDict.traced_fn api func inputs_dict)
              (lookup_fn_adapter api var_name_lookup_fn) strict force_outplace self
              (createGraphByTracingWithDict.compact_argument_names
                (w.dict_at inputs_dict) argument_names))
            (fun outs => M.pure (outs.1.graph, outs.2)) w) ∧
    (∀ (trace0 : TraceFn) (w : World) (compact_inputs : Stack),
      createGraphByTracingWithDict.compact_trace_inputs api (w.dict_at inputs_dict)
        (createGraphByTracingWithDict.compact_argument_names (w.dict_at inputs_dict)
          argument_names) = Except.ok compact_inputs →
      (createGraphByTracingWithDict trace0 api func inputs_dict trace_inputs
          var_name_lookup_fn strict force_outplace self argument_names w).2 =
        (trace0 compact_inputs
          (createGraphByTracingWithDict.traced_fn api func inputs_dict)
          (lookup_fn_adapter api var_name_lookup_fn) strict force_outplace self
          (createGraphByTracingWithDict.compact_argument_names
            (w.dict_at inputs_dict) argument_names) w).2) ∧
    (∀ (w : World) (compact_inputs : Stack),
      w.tracing_state = none →
      createGraphByTracingWithDict.compact_trace_inputs api (w.dict_at inputs_dict)
        (createGraphByTracingWithDict.compact_argument_names (w.dict_at inputs_dict)
          argument_names) = Except.ok compact_inputs →
      (createGraphByTracingWithDict trace api func inputs_dict trace_inputs
          var_name_lookup_fn strict force_outplace self argument_names w).2 =
        (func [] (w.dict_at inputs_dict).items
          (w.setTracingState (some (trace.new_session compact_inputs strict force_outplace
            (createGraphByTracingWithDict.compact_argument_names
              (w.dict_at inputs_dict) argument_names))))).2.setTracingState none) ∧
    (∀ w : World,
      (∀ (kwargs : List (PyObject × PyObject)) (w0 : World),
        (func [] kwargs w0).2.dict_at inputs_dict = w0.dict_at inputs_dict) →
      (createGraphByTracingWithDict trace api func inputs_dict trace_inputs
          var_name_lookup_fn strict force_outplace self argument_names w).2.dict_at
          inputs_dict = w.dict_at inputs_dict) := by
  refine ⟨fun inputs w => keyed_traced_fn_eq api func inputs_dict inputs w,
    fun trace0 w => keyed_entry_apply trace0 api func inputs_dict trace_inputs
      var_name_lookup_fn strict force_outplace self argument_names w, ?_, ?_, ?_⟩
  · intro trace0 w compact_inputs hc
    rw [keyed_entry_apply, hc]
    exact bind_pure_world _ _ w
  · intro w compact_inputs hts hc
    rw [keyed_entry_apply, hc]
    simp only
    rw [bind_pure_world, trace_world_of_inactive _ _ _ _ _ _ _ w hts, keyed_traced_fn_eq,
      returned_stack_world]
    rfl
  · intro w hfunc
    rcases keyed_entry_world api func inputs_dict trace_inputs var_name_lookup_fn strict
      force_outplace self argument_names w with h | h | ⟨w0, hw0, h⟩
    · rw [h]
    · rw [h]
      rfl
    · rw [h]
      have h1 := hfunc (w0.dict_at inputs_dict).items w0
      have h2 : w0.dict_at inputs_dict = w.dict_at inputs_dict := by
        unfold World.dict_at
        rw [hw0]
      show (func [] (w0.dict_at inputs_dict).items w0).2.dict_at inputs_dict = _
      rw [h1, h2]

theorem C2_witness :
    (∀ (kwargs : List (PyObject × PyObject)) (w0 : World),
      (recording_func [] kwargs w0).2.dict_at sample_mapping = w0.dict_at sample_mapping) ∧
    (sample_world.dict_at sample_mapping).items =
      [(PyObject.str "c", PyObject.obj 3), (PyObject.str "b", PyObject.obj 2)] ∧
    (sample_world.dict_at ⟨1⟩).items = [] ∧
    (createGraphByTracingWithDict trace sample_api recording_func sample_mapping []
        sample_lookup false false none ["b"] sample_world).1 =
      Except.ok (⟨[], [], 0, [(⟨0⟩, "b")], [⟨0⟩], [], 1⟩, [⟨2⟩]) ∧
    ((createGraphByTracingWithDict trace sample_api recording_func sample_mapping []
        sample_lookup false false none ["b"] sample_world).2.dict_at ⟨1⟩).items =
      [(PyObject.str "c", PyObject.obj 3), (PyObject.str "b", PyObject.obj 2)] ∧
    (createGraphByTracingWithDict trace sample_api recording_func sample_mapping []
        sample_lookup false false none ["b"] sample_world).2.dict_at sample_mapping =
      sample_world.dict_at sample_mapping ∧
    ((createGraphByTracingWithDict trace sample_api writing_func sample_mapping []
        sample_lookup false false none ["b"] sample_world).2.dict_at sample_mapping).items =
      [(PyObject.str "seen", PyObject.obj 0)] :=
  ⟨fun _ _ => rfl, by decide, by decide, rfl, by decide,
    (C2_callable_receives_original_mapping sample_api recording_func sample_mapping []
      sample_lookup false false none ["b"]).2.2.2.2 sample_world (fun _ _ => rfl),
    by decide⟩

/-- C4: `createGraphByTracing` calls `tracer::trace` with the input sequence it was given,
unchanged; the driver declares one graph input per element, and the bindings of its value
table, in the order they were made, pair the i-th input with the i-th graph input; and
the closure calls the callable with exactly one positional argument per input
it received, the i-th being the host object of the i-th input, and no keyword argument
(for every length, zero included). -/
theorem C4_positional_inputs_forwarded_in_order (trace0 : TraceFn) (api : PyBind)
    (func : py_function) (trace_inputs : Stack) (var_name_lookup_fn : py_function)
    (strict force_outplace : Bool) (self : Option Module) (argument_names : List String) :
    createGraphByTracing trace0 api func trace_inputs var_name_lookup_fn strict
        force_outplace self argument_names =
      M.bind
        (trace0 trace_inputs (createGraphByTracing.traced_fn api func)
          (lookup_fn_adapter api var_name_lookup_fn) strict force_outplace self
          argument_names)
        (fun outs => M.pure (outs.1.graph, outs.2)) ∧
    ((trace.new_session trace_inputs strict force_outplace argument_names).graph.inputs.length
        = trace_inputs.length ∧
      (trace.new_session trace_inputs strict force_outplace argument_names).value_table.reverse
        = trace_inputs.zip
          ((trace.new_session trace_inputs strict force_outplace
            argument_names).graph.inputs.map Prod.fst)) ∧
    (∀ (inputs : Stack) (args : List PyObject) (_hlen : args.length = inputs.length)
        (_hcast : ∀ (i : Nat) (h1 : i < inputs.length) (h2 : i < args.length),
          api.cast (inputs.get ⟨i, h1⟩) = Except.ok (args.get ⟨i, h2⟩)) (w : World),
      createGraphByTracing.traced_fn api func inputs w =
        returned_stack api (func args [] w)) := by
  refine ⟨rfl, ?_, ?_⟩
  · unfold trace.new_session
    obtain ⟨h1, vs, _, h3, h4⟩ := declare_inputs_spec argument_names trace_inputs
      ⟨Graph.empty, [], strict, force_outplace⟩
    refine ⟨?_, ?_⟩
    · rw [h1]
      simp [Graph.empty]
    · rw [h3, h4]
      simp [Graph.empty]
  · intro inputs args hlen hcast w
    exact positional_traced_fn_eq api func inputs args hlen hcast w

theorem entry_error_of_trace_error {trace0 : TraceFn} {api : PyBind} {func : py_function}
    {trace_inputs : Stack} {lk : py_function} {strict force_outplace : Bool}
    {self : Option Module} {names : List String} {w w1 : World} {e : Exception}
    (h : trace0 trace_inputs (createGraphByTracing.traced_fn api func)
        (lookup_fn_adapter api lk) strict force_outplace self names w =
      (Except.error e, w1)) :
    createGraphByTracing trace0 api func trace_inputs lk strict force_outplace self names w =
      (Except.error e, w1) := by
  unfold createGraphByTracing
  rw [M.bind_apply, h]

theorem keyed_entry_of_converted {trace0 : TraceFn} {api : PyBind} {func : py_function}
    {d : py_dict} {trace_inputs : Stack} {lk : py_function} {strict force_outplace : Bool}
    {self : Option Module} {names : List String} {compact_inputs : Stack} {w : World}
    (hc : createGraphByTracingWithDict.compact_trace_inputs api (w.dict_at d)
      (createGraphByTracingWithDict.compact_argument_names (w.dict_at d) names) =
        Except.ok compact_inputs) :
    createGraphByTracingWithDict trace0 api func d trace_inputs lk strict force_outplace
        self names w =
      M.bind
        (trace0 compact_inputs (createGraphByTracingWithDict.traced_fn api func d)
          (lookup_fn_adapter api lk) strict force_outplace self
          (createGraphByTracingWithDict.compact_argument_names (w.dict_at d) names))
        (fun outs => M.pure (outs.1.graph, outs.2)) w := by
  rw [keyed_entry_apply, hc]

theorem bind_pure_ok_inv {α β : Type} (x : M α) (g : α → β) (w w2 : World) (b : β)
    (h : M.bind x (fun a => M.pure (g a)) w = (Except.ok b, w2)) :
    ∃ a, x w = (Except.ok a, w2) ∧ g a = b := by
  unfold M.bind at h
  rcases hx : x w with ⟨r, w1⟩
  rw [hx] at h
  cases r with
  | error e => simp at h
  | ok a =>
    simp only [M.pure, Prod.mk.injEq, Except.ok.injEq] at h
    exact ⟨a, by rw [h.2], h.1⟩

/-- C3: in both call conventions, whenever the traced callable returns `None` the closure
handed to the tracer raises the error "The traced function didn't return any values",
and the entry point run by the trace driver then ends with that error instead of a pair
of graph and outputs; whenever a closure returns to the tracer, and whenever an entry
point returns a result, the callable has returned a value other than `None` and the
output list has exactly one element. -/
theorem C3_none_result_is_an_error (api : PyBind) (func : py_function) :
    (∀ (d : py_dict) (inputs : Stack) (w w1 : World),
      func [] (w.dict_at d).items w = (Except.ok PyObject.None, w1) →
      createGraphByTracingWithDict.traced_fn api func d inputs w =
        (Except.error (Exception.c10_Error no_output_msg), w1)) ∧
    (∀ (inputs : Stack) (args : List PyObject) (w w1 : World),
      args.length = inputs.length →
      (∀ (i : Nat) (h1 : i < inputs.length) (h2 : i < args.length),
        api.cast (inputs.get ⟨i, h1⟩) = Except.ok (args.get ⟨i, h2⟩)) →
      func args [] w = (Except.ok PyObject.None, w1) →
      createGraphByTracing.traced_fn api func inputs w =
        (Except.error (Exception.c10_Error no_output_msg), w1)) ∧
    (∀ (d : py_dict) (inputs outs : Stack) (w w1 : World),
      createGraphByTracingWithDict.traced_fn api func d inputs w = (Except.ok outs, w1) →
      outs.length = 1 ∧
        ∃ out, func [] (w.dict_at d).items w = (Except.ok out, w1) ∧
          out ≠ PyObject.None) ∧
    (∀ (inputs outs : Stack) (w w1 : World),
      createGraphByTracing.traced_fn api func inputs w = (Except.ok outs, w1) →
      outs.length = 1 ∧
        ∃ args out, func args [] w = (Except.ok out, w1) ∧ out ≠ PyObject.None) ∧
    (∀ (d : py_dict) (trace_inputs compact_inputs : Stack) (lk : py_function)
        (strict force_outplace : Bool) (self : Option Module) (names : List String)
        (w w1 : World),
      w.tracing_state = none →
      createGraphByTracingWithDict.compact_trace_inputs api (w.dict_at d)
        (createGraphByTracingWithDict.compact_argument_names (w.dict_at d) names) =
          Except.ok compact_inputs →
      func [] (w.dict_at d).items
        (w.setTracingState (some (trace.new_session compact_inputs strict force_outplace
          (createGraphByTracingWithDict.compact_argument_names (w.dict_at d) names)))) =
        (Except.ok PyObject.None, w1) →
      createGraphByTracingWithDict trace api func d trace_inputs lk strict force_outplace
          self names w =
        (Except.error (Exception.c10_Error no_output_msg), w1.setTracingState none)) ∧
    (∀ (trace_inputs : Stack) (args : List PyObject) (lk : py_function)
        (strict force_outplace : Bool) (self : Option Module) (names : List String)
        (w w1 : World),
      w.tracing_state = none →
      args.length = trace_inputs.length →
      (∀ (i : Nat) (h1 : i < trace_inputs.length) (h2 : i < args.length),
        api.cast (trace_inputs.get ⟨i, h1⟩) = Except.ok (args.get ⟨i, h2⟩)) →
      func args []
        (w.setTracingState
          (some (trace.new_session trace_inputs strict force_outplace names))) =
        (Except.ok PyObject.None, w1) →
      createGraphByTracing trace api func trace_inputs lk strict force_outplace self names w =
        (Except.error (Exception.c10_Error no_output_msg), w1.setTracingState none)) ∧
    (∀ (d : py_dict) (trace_inputs : Stack) (lk : py_function)
        (strict force_outplace : Bool)
        (self : Option Module) (names : List String) (w w2 : World) (g : Graph)
        (outs : Stack),
      createGraphByTracingWithDict trace api func d trace_inputs lk strict force_outplace
          self names w = (Except.ok (g, outs), w2) →
      outs.length = 1 ∧
        ∃ w0 w1 out, func [] (w0.dict_at d).items w0 = (Except.ok out, w1) ∧
          out ≠ PyObject.None) ∧
    (∀ (trace_inputs : Stack) (lk : py_function) (strict force_outplace : Bool)
        (self : Option Module) (names : List String) (w w2 : World) (g : Graph)
        (outs : Stack),
      createGraphByTracing trace api func trace_inputs lk strict force_outplace self names w =
        (Except.ok (g, outs), w2) →
      outs.length = 1 ∧
        ∃ args w0 w1 out, func args [] w0 = (Except.ok out, w1) ∧ out ≠ PyObject.None) := by
  refine ⟨?_, ?_, ?_, ?_, ?_, ?_, ?_, ?_⟩
  · intro d inputs w w1 h
    rw [keyed_traced_fn_eq, h, returned_stack_none]
  · intro inputs args w w1 hlen hcast h
    rw [positional_traced_fn_eq api func inputs args hlen hcast, h, returned_stack_none]
  · intro d inputs outs w w1 h
    rw [keyed_traced_fn_eq] at h
    obtain ⟨out, h1, h2, h3⟩ := returned_stack_ok_inv api _ outs w1 h
    exact ⟨h3, out, h1, h2⟩
  · intro inputs outs w w1 h
    obtain ⟨args, out, h1, h2, h3⟩ := positional_traced_fn_ok_inv api func inputs w outs w1 h
    exact ⟨h3, args, out, h1, h2⟩
  · intro d trace_inputs compact_inputs lk strict force_outplace self names w w1 hts hc h
    rw [keyed_entry_of_converted hc, M.bind]
    have hfn : createGraphByTracingWithDict.traced_fn api func d compact_inputs
        (w.setTracingState (some (trace.new_session compact_inputs strict force_outplace
          (createGraphByTracingWithDict.compact_argument_names (w.dict_at d) names)))) =
        (Except.error (Exception.c10_Error no_output_msg), w1) := by
      rw [keyed_traced_fn_eq]
      have hd : (w.setTracingState (some (trace.new_session compact_inputs strict
          force_outplace (createGraphByTracingWithDict.compact_argument_names
            (w.dict_at d) names)))).dict_at d = w.dict_at d := rfl
      rw [hd, h, returned_stack_none]
    rw [trace_error _ _ _ _ _ _ _ _ _ _ hts hfn]
  · intro trace_inputs args lk strict force_outplace self names w w1 hts hlen hcast h
    apply entry_error_of_trace_error
    apply trace_error _ _ _ _ _ _ _ _ _ _ hts
    rw [positional_traced_fn_eq api func trace_inputs args hlen hcast, h, returned_stack_none]
  · intro d trace_inputs lk strict force_outplace self names w w2 g outs h
    have h2 := keyed_entry_apply trace api func d trace_inputs lk strict
      force_outplace self names w
    rw [h] at h2
    cases hc : createGraphByTracingWithDict.compact_trace_inputs api (w.dict_at d)
        (createGraphByTracingWithDict.compact_argument_names (w.dict_at d) names) with
    | error e => rw [hc] at h2; simp at h2
    | ok compact_inputs =>
      rw [hc] at h2
      simp only at h2
      obtain ⟨⟨st, outs1⟩, ha, hb⟩ := bind_pure_ok_inv _ _ _ _ _ h2.symm
      simp only [Prod.mk.injEq] at hb
      obtain ⟨w0, w1, hfn⟩ := trace_ok_outputs _ _ _ _ _ _ _ _ _ _ _ ha
      rw [keyed_traced_fn_eq] at hfn
      obtain ⟨out, h3, h4, h5⟩ := returned_stack_ok_inv api _ outs1 w1 hfn
      rw [← hb.2]
      exact ⟨h5, w0, w1, out, h3, h4⟩
  · intro trace_inputs lk strict force_outplace self names w w2 g outs h
    unfold createGraphByTracing at h
    obtain ⟨⟨st, outs1⟩, ha, hb⟩ := bind_pure_ok_inv _ _ _ _ _ h
    simp only [Prod.mk.injEq] at hb
    obtain ⟨w0, w1, hfn⟩ := trace_ok_outputs _ _ _ _ _ _ _ _ _ _ _ ha
    obtain ⟨args, out, h3, h4, h5⟩ :=
      positional_traced_fn_ok_inv api func trace_inputs w0 outs1 w1 hfn
    rw [← hb.2]
    exact ⟨h5, args, w0, w1, out, h3, h4⟩

theorem sample_cast_one :
    ∀ (i : Nat) (h1 : i < ([⟨0⟩] : Stack).length) (h2 : i < [PyObject.obj 0].length),
      sample_api.cast (([⟨0⟩] : Stack).get ⟨i, h1⟩) =
        Except.ok ([PyObject.obj 0].get ⟨i, h2⟩) := by
  intro i h1 h2
  have hi : i = 0 := by simpa using h1
  subst hi
  rfl

theorem sample_cast_two :
    ∀ (i : Nat) (h1 : i < ([⟨1⟩, ⟨2⟩] : Stack).length)
      (h2 : i < [PyObject.obj 1, PyObject.obj 2].length),
      sample_api.cast (([⟨1⟩, ⟨2⟩] : Stack).get ⟨i, h1⟩) =
        Except.ok ([PyObject.obj 1, PyObject.obj 2].get ⟨i, h2⟩) := by
  intro i h1 h2
  have hi : i = 0 ∨ i = 1 := by
    simp only [List.length_cons, List.length_nil] at h1
    omega
  rcases hi with hi | hi <;> subst hi <;> rfl

theorem C3_witness :
    sample_world.tracing_state = none ∧
      none_func [PyObject.obj 0] []
          (sample_world.setTracingState (some (trace.new_session [⟨0⟩] false false ["x"]))) =
        (Except.ok PyObject.None,
          sample_world.setTracingState (some (trace.new_session [⟨0⟩] false false ["x"]))) ∧
      createGraphByTracing trace sample_api none_func [⟨0⟩] sample_lookup false false none
          ["x"] sample_world =
        (Except.error (Exception.c10_Error no_output_msg),
          (sample_world.setTracingState
            (some (trace.new_session [⟨0⟩] false false ["x"]))).setTracingState none) :=
  ⟨rfl, rfl,
    (C3_none_result_is_an_error sample_api none_func).2.2.2.2.2.1 [⟨0⟩] [PyObject.obj 0]
      sample_lookup false false none ["x"] sample_world _ rfl rfl sample_cast_one rfl⟩

theorem C4_witness :
    [PyObject.obj 1, PyObject.obj 2].length = ([⟨1⟩, ⟨2⟩] : Stack).length ∧
      createGraphByTracing.traced_fn sample_api sample_func [⟨1⟩, ⟨2⟩] sample_world =
        returned_stack sample_api
          (sample_func [PyObject.obj 1, PyObject.obj 2] [] sample_world) ∧
      (createGraphByTracing.traced_fn sample_api sample_func [⟨1⟩, ⟨2⟩] sample_world).1 =
        Except.ok [⟨1⟩] :=
  ⟨rfl,
    (C4_positional_inputs_forwarded_in_order trace sample_api sample_func [⟨1⟩, ⟨2⟩]
      sample_lookup false false none []).2.2 [⟨1⟩, ⟨2⟩] [PyObject.obj 1, PyObject.obj 2] rfl
      sample_cast_two sample_world,
    rfl⟩

end Closures

section Recorder

theorem updateNode_last (g : Graph) (l : List Node) (node : Node) (f : Node → Node)
    (h : g.all_nodes = l ++ [node]) :
    g.updateNode l.length f = g.withAllNodes (l ++ [f node]) := by
  unfold Graph.updateNode
  rw [h, List.getElem?_concat_length]
  simp only
  rw [List.set_append_right _ _ (Nat.le_refl _)]
  simp

theorem foldl_addInput_last (vs : List Value) (g : Graph) (l : List Node) (node : Node)
    (h : g.all_nodes = l ++ [node]) :
    vs.foldl (fun g v => g.addInput l.length v) g =
      g.withAllNodes (l ++ [⟨node.kind, node.inputs ++ vs, node.source_range, node.scope⟩]) := by
  induction vs generalizing g node with
  | nil =>
    simp only [List.foldl_nil, List.append_nil]
    unfold Graph.withAllNodes
    rw [← h]
  | cons v rest ih =>
    rw [List.foldl_cons]
    have h1 : g.addInput l.length v =
        g.withAllNodes
          (l ++ [⟨node.kind, node.inputs ++ [v], node.source_range, node.scope⟩]) := by
      unfold Graph.addInput
      exact updateNode_last g l node _ h
    rw [ih (g.addInput l.length v)
      ⟨node.kind, node.inputs ++ [v], node.source_range, node.scope⟩ (by rw [h1]; rfl)]
    rw [h1]
    simp [Graph.withAllNodes]

theorem getValueTrace_ok (input : IValue) (w : World) (st : TracingState) (v : Value)
    (hts : w.tracing_state = some st) (hv : st.value_table.lookup input = some v) :
    getValueTrace input w = (Except.ok v, w) := by
  unfold getValueTrace
  simp only [hts, hv]

theorem getValueTrace_fail (input : IValue) (w : World) (st : TracingState)
    (hts : w.tracing_state = some st) (hv : st.value_table.lookup input = none) :
    getValueTrace input w = (Except.error Exception.lookup_error, w) := by
  unfold getValueTrace
  simp only [hts, hv]

theorem onGraph_apply {α : Type} (f : Graph → α × Graph) (w : World) (st : TracingState)
    (hts : w.tracing_state = some st) :
    onGraph f w =
      (Except.ok (f st.graph).1, w.setTracingState (some (st.withGraph (f st.graph).2))) := by
  unfold onGraph
  simp only [hts]

theorem setTracingState_same (w : World) (st : TracingState)
    (hts : w.tracing_state = some st) :
    w.setTracingState (some (st.withGraph st.graph)) = w := by
  unfold World.setTracingState TracingState.withGraph
  rw [← hts]

theorem addInputs_ok (n : NodePtr) (inputs : List Variable) (w : World) (st : TracingState)
    (hts : w.tracing_state = some st)
    (hreg : ∀ input ∈ inputs, ∃ v, st.value_table.lookup input = some v) :
    ∃ vs : List Value,
      vs.map some = inputs.map (fun input => st.value_table.lookup input) ∧
      preRecordPythonTrace.addInputs n inputs w =
        (Except.ok (),
          w.setTracingState
            (some (st.withGraph (vs.foldl (fun g v => g.addInput n v) st.graph)))) := by
  induction inputs generalizing w st with
  | nil =>
    refine ⟨[], rfl, ?_⟩
    unfold preRecordPythonTrace.addInputs
    rw [List.foldl_nil, setTracingState_same w st hts]
    rfl
  | cons input rest ih =>
    obtain ⟨v, hv⟩ := hreg input (List.mem_cons_self _ _)
    have hts1 : (w.setTracingState
        (some (st.withGraph (st.graph.addInput n v)))).tracing_state =
        some (st.withGraph (st.graph.addInput n v)) := rfl
    obtain ⟨vs, hvs, hrun⟩ := ih _ _ hts1
      (fun x hx => hreg x (List.mem_cons_of_mem _ hx))
    have hvs1 : vs.map some = rest.map (fun input => st.value_table.lookup input) := hvs
    refine ⟨v :: vs, by simp [hv, hvs1], ?_⟩
    unfold preRecordPythonTrace.addInputs
    rw [M.bind_apply, getValueTrace_ok input w st v hts hv]
    simp only
    rw [M.bind_apply, onGraph_apply _ w st hts]
    simp only
    rw [hrun]
    rfl

theorem addInputs_fail (n : NodePtr) (inputs : List Variable) (w : World)
    (st : TracingState) (hts : w.tracing_state = some st)
    (hfail : ∃ input ∈ inputs, st.value_table.lookup input = none) :
    ∃ vs : List Value,
      preRecordPythonTrace.addInputs n inputs w =
        (Except.error Exception.lookup_error,
          w.setTracingState
            (some (st.withGraph (vs.foldl (fun g v => g.addInput n v) st.graph)))) := by
  induction inputs generalizing w st with
  | nil =>
    obtain ⟨input, hmem, _⟩ := hfail
    cases hmem
  | cons input rest ih =>
    cases hv : st.value_table.lookup input with
    | none =>
      refine ⟨[], ?_⟩
      unfold preRecordPythonTrace.addInputs
      rw [M.bind_apply, getValueTrace_fail input w st hts hv, List.foldl_nil,
        setTracingState_same w st hts]
    | some v =>
      have hts1 : (w.setTracingState
          (some (st.withGraph (st.graph.addInput n v)))).tracing_state =
          some (st.withGraph (st.graph.addInput n v)) := rfl
      have hrest : ∃ x ∈ rest, st.value_table.lookup x = none := by
        obtain ⟨x, hmem, hx⟩ := hfail
        rcases List.mem_cons.mp hmem with heq | htail
        · subst heq
          rw [hv] at hx
          cases hx
        · exact ⟨x, htail, hx⟩
      obtain ⟨vs, hrun⟩ := ih _ _ hts1 hrest
      refine ⟨v :: vs, ?_⟩
      unfold preRecordPythonTrace.addInputs
      rw [M.bind_apply, getValueTrace_ok input w st v hts hv]
      simp only
      rw [M.bind_apply, onGraph_apply _ w st hts]
      simp only
      rw [hrun]
      rfl

theorem recordSourceLocation_apply (lineno_for_offset : Source → Nat → Nat) (w : World)
    (st : TracingState) (l : List Node) (node : Node)
    (hts : w.tracing_state = some st) (hl : st.graph.all_nodes = l ++ [node]) :
    ∃ sr : Option SourceRange,
      recordSourceLocation lineno_for_offset l.length w =
        (Except.ok (),
          w.setTracingState
            (some (st.withGraph
              (st.graph.withAllNodes (l ++ [⟨node.kind, node.inputs, sr, node.scope⟩]))))) := by
  unfold recordSourceLocation
  cases hrec : w.record_source_location with
  | defaultRecordSourceLocation =>
    refine ⟨node.source_range, ?_⟩
    simp only
    have : st.graph.withAllNodes
        (l ++ [⟨node.kind, node.inputs, node.source_range, node.scope⟩]) = st.graph := by
      unfold Graph.withAllNodes
      rw [← hl]
    rw [this, setTracingState_same w st hts]
  | pythonRecordSourceLocation =>
    refine ⟨some (getPythonInterpreterSourceRange lineno_for_offset w), ?_⟩
    simp only
    unfold pythonRecordSourceLocation
    rw [onGraph_apply _ w st hts]
    simp only
    unfold Graph.setSourceRange
    rw [updateNode_last st.graph l node _ hl]

theorem preRecordPythonTrace_ok_run (api : PyBind) (lineno_for_offset : Source → Nat → Nat)
    (pyobj : PyObject) (arg_types : String) (inputs : List Variable)
    (scalar_args : List PyObject) (w : World) (st : TracingState) (apply : PyObject)
    (happly : api.PyObject_GetAttrString pyobj "apply" = some apply)
    (hts : w.tracing_state = some st)
    (hreg : ∀ input ∈ inputs, ∃ v, st.value_table.lookup input = some v) :
    ∃ (sr : Option SourceRange) (vs : List Value),
      vs.map some = inputs.map (fun input => st.value_table.lookup input) ∧
      preRecordPythonTrace api lineno_for_offset pyobj arg_types inputs scalar_args w =
        (Except.ok st.graph.all_nodes.length,
          w.setTracingState
            (some (st.withGraph
              (Graph.insertNode
                (st.graph.withAllNodes (st.graph.all_nodes ++
                  [⟨NodeKind.PythonOp apply arg_types scalar_args, vs, sr,
                    st.graph.scope_stack⟩]))
                st.graph.all_nodes.length)))) := by
  have hts1 : (w.setTracingState (some (st.withGraph
      (st.graph.createPythonOp apply arg_types scalar_args).2))).tracing_state =
      some (st.withGraph (st.graph.createPythonOp apply arg_types scalar_args).2) := rfl
  obtain ⟨sr, hrec⟩ := recordSourceLocation_apply lineno_for_offset _ _ st.graph.all_nodes
    ⟨NodeKind.PythonOp apply arg_types scalar_args, [], none, st.graph.scope_stack⟩ hts1 rfl
  obtain ⟨vs, hvs, hadd⟩ := addInputs_ok st.graph.all_nodes.length inputs
    ((w.setTracingState (some (st.withGraph
      (st.graph.createPythonOp apply arg_types scalar_args).2))).setTracingState
      (some ((st.withGraph (st.graph.createPythonOp apply arg_types scalar_args).2).withGraph
        (((st.withGraph
          (st.graph.createPythonOp apply arg_types scalar_args).2).graph).withAllNodes
          (st.graph.all_nodes ++
            [⟨NodeKind.PythonOp apply arg_types scalar_args, [], sr,
              st.graph.scope_stack⟩])))))
    _ rfl hreg
  refine ⟨sr, vs, hvs, ?_⟩
  unfold preRecordPythonTrace
  simp only [happly]
  rw [M.bind_apply]
  have hpure : (pure apply : M PyObject) w = (Except.ok apply, w) := rfl
  have hderef : derefTracingState w = (Except.ok st, w) := by
    unfold derefTracingState
    simp only [hts]
  rw [hpure]
  simp only
  rw [M.bind_apply, hderef]
  simp only
  rw [M.bind_apply, onGraph_apply _ w st hts]
  simp only
  rw [M.bind_apply]
  have hn : (st.graph.createPythonOp apply arg_types scalar_args).1 =
      st.graph.all_nodes.length := rfl
  rw [hn, hrec]
  simp only
  rw [M.bind_apply, hadd]
  simp only
  rw [M.bind_apply, onGraph_apply _ _ _ rfl]
  simp only
  rw [foldl_addInput_last vs _ st.graph.all_nodes
    ⟨NodeKind.PythonOp apply arg_types scalar_args, [], sr, st.graph.scope_stack⟩ rfl]
  rfl

theorem preRecordPythonTrace_fail_run (api : PyBind)
    (lineno_for_offset : Source → Nat → Nat)
    (pyobj : PyObject) (arg_types : String) (inputs : List Variable)
    (scalar_args : List PyObject) (w : World) (st : TracingState) (apply : PyObject)
    (happly : api.PyObject_GetAttrString pyobj "apply" = some apply)
    (hts : w.tracing_state = some st)
    (hfail : ∃ input ∈ inputs, st.value_table.lookup input = none) :
    ∃ (sr : Option SourceRange) (vs : List Value),
      preRecordPythonTrace api lineno_for_offset pyobj arg_types inputs scalar_args w =
        (Except.error Exception.lookup_error,
          w.setTracingState
            (some (st.withGraph
              (st.graph.withAllNodes (st.graph.all_nodes ++
                [⟨NodeKind.PythonOp apply arg_types scalar_args, vs, sr,
                  st.graph.scope_stack⟩]))))) := by
  have hts1 : (w.setTracingState (some (st.withGraph
      (st.graph.createPythonOp apply arg_types scalar_args).2))).tracing_state =
      some (st.withGraph (st.graph.createPythonOp apply arg_types scalar_args).2) := rfl
  obtain ⟨sr, hrec⟩ := recordSourceLocation_apply lineno_for_offset _ _ st.graph.all_nodes
    ⟨NodeKind.PythonOp apply arg_types scalar_args, [], none, st.graph.scope_stack⟩ hts1 rfl
  obtain ⟨vs, hadd⟩ := addInputs_fail st.graph.all_nodes.length inputs
    ((w.setTracingState (some (st.withGraph
      (st.graph.createPythonOp apply arg_types scalar_args).2))).setTracingState
      (some ((st.withGraph (st.graph.createPythonOp apply arg_types scalar_args).2).withGraph
        (((st.withGraph
          (st.graph.createPythonOp apply arg_types scalar_args).2).graph).withAllNodes
          (st.graph.all_nodes ++
            [⟨NodeKind.PythonOp apply arg_types scalar_args, [], sr,
              st.graph.scope_stack⟩])))))
    _ rfl hfail
  refine ⟨sr, vs, ?_⟩
  unfold preRecordPythonTrace
  simp only [happly]
  rw [M.bind_apply]
  have hpure : (pure apply : M PyObject) w = (Except.ok apply, w) := rfl
  have hderef : derefTracingState w = (Except.ok st, w) := by
    unfold derefTracingState
    simp only [hts]
  rw [hpure]
  simp only
  rw [M.bind_apply, hderef]
  simp only
  rw [M.bind_apply, onGraph_apply _ w st hts]
  simp only
  rw [M.bind_apply]
  have hn : (st.graph.createPythonOp apply arg_types scalar_args).1 =
      st.graph.all_nodes.length := rfl
  rw [hn, hrec]
  simp only
  rw [M.bind_apply, hadd]
  simp only
  rw [foldl_addInput_last vs _ st.graph.all_nodes
    ⟨NodeKind.PythonOp apply arg_types scalar_args, [], sr, st.graph.scope_stack⟩ rfl]
  rfl

/-- C5: for a foreign call whose apply target resolves and whose traced-value arguments
are all registered in the value table of the active session, `preRecordPythonTrace`
returns a newly allocated node and inserts exactly that one node in the node sequence of
the graph of the session (at the insertion point, the other nodes keeping their order);
the input edges of the node are exactly the IR values currently bound to the traced-value
arguments, in argument order and of the same number; the scalar arguments are carried in
the payload of the node, with the apply target and the argument-type descriptor, and
give no input edge. -/
theorem C5_foreign_call_inserts_one_node (api : PyBind)
    (lineno_for_offset : Source → Nat → Nat)
    (pyobj : PyObject) (arg_types : String) (inputs : List Variable)
    (scalar_args : List PyObject) (w : World) (st : TracingState) (apply : PyObject)
    (happly : api.PyObject_GetAttrString pyobj "apply" = some apply)
    (hts : w.tracing_state = some st)
    (hreg : ∀ input ∈ inputs, ∃ v, st.value_table.lookup input = some v) :
    ∃ (w1 : World) (st1 : TracingState) (node : Node),
      preRecordPythonTrace api lineno_for_offset pyobj arg_types inputs scalar_args w =
        (Except.ok st.graph.all_nodes.length, w1) ∧
      w1.tracing_state = some st1 ∧
      st1.graph.nodes =
        st.graph.nodes.take st.graph.insert_point ++
          st.graph.all_nodes.length :: st.graph.nodes.drop st.graph.insert_point ∧
      st1.graph.nodes.length = st.graph.nodes.length + 1 ∧
      ((∀ m ∈ st.graph.nodes, m < st.graph.all_nodes.length) →
        st.graph.all_nodes.length ∉ st.graph.nodes) ∧
      st1.graph.all_nodes = st.graph.all_nodes ++ [node] ∧
      node.kind = NodeKind.PythonOp apply arg_types scalar_args ∧
      node.inputs.map some = inputs.map (fun input => st.value_table.lookup input) ∧
      node.inputs.length = inputs.length ∧
      st1.value_table = st.value_table := by
  obtain ⟨sr, vs, hvs, hrun⟩ := preRecordPythonTrace_ok_run api lineno_for_offset pyobj
    arg_types inputs scalar_args w st apply happly hts hreg
  refine ⟨_, _, ⟨NodeKind.PythonOp apply arg_types scalar_args, vs, sr, st.graph.scope_stack⟩,
    hrun, rfl, rfl, ?_, ?_, rfl, rfl, hvs, ?_, rfl⟩
  · show (st.graph.nodes.take st.graph.insert_point ++
      st.graph.all_nodes.length :: st.graph.nodes.drop st.graph.insert_point).length = _
    have := List.take_append_drop st.graph.insert_point st.graph.nodes
    have hlen := congrArg List.length this
    rw [List.length_append] at hlen
    rw [List.length_append, List.length_cons]
    omega
  · intro hwf hmem
    exact Nat.lt_irrefl _ (hwf _ hmem)
  · have := congrArg List.length hvs
    simpa using this

/-- C6: when the apply target of the callable cannot be resolved, `preRecordPythonTrace`
fails with `python_error` and leaves the whole process state as it was, whether or not a
session is active: the session is not consulted, no node is allocated or inserted, and
the graph is unchanged. -/
theorem C6_unresolved_apply_fails_first (api : PyBind)
    (lineno_for_offset : Source → Nat → Nat)
    (pyobj : PyObject) (arg_types : String) (inputs : List Variable)
    (scalar_args : List PyObject) (w : World)
    (happly : api.PyObject_GetAttrString pyobj "apply" = none) :
    preRecordPythonTrace api lineno_for_offset pyobj arg_types inputs scalar_args w =
      (Except.error Exception.python_error, w) := by
  unfold preRecordPythonTrace
  simp only [happly]
  rfl

/-- C10: when the apply target resolves, a session is active and the lookup of some
traced-value argument fails, `preRecordPythonTrace` ends with the lookup error and the
sequence of nodes inserted in the graph of the session, its insertion point and the
value table are as before the call; the node allocated for the call stays in the arena
of the graph without being inserted. -/
theorem C10_failed_lookup_inserts_no_node (api : PyBind)
    (lineno_for_offset : Source → Nat → Nat)
    (pyobj : PyObject) (arg_types : String) (inputs : List Variable)
    (scalar_args : List PyObject) (w : World) (st : TracingState) (apply : PyObject)
    (happly : api.PyObject_GetAttrString pyobj "apply" = some apply)
    (hts : w.tracing_state = some st)
    (hfail : ∃ input ∈ inputs, st.value_table.lookup input = none) :
    ∃ (w1 : World) (st1 : TracingState),
      preRecordPythonTrace api lineno_for_offset pyobj arg_types inputs scalar_args w =
        (Except.error Exception.lookup_error, w1) ∧
      w1.tracing_state = some st1 ∧
      st1.graph.nodes = st.graph.nodes ∧
      st1.graph.insert_point = st.graph.insert_point ∧
      st1.value_table = st.value_table ∧
      st1.graph.all_nodes.length = st.graph.all_nodes.length + 1 := by
  obtain ⟨sr, vs, hrun⟩ := preRecordPythonTrace_fail_run api lineno_for_offset pyobj
    arg_types inputs scalar_args w st apply happly hts hfail
  refine ⟨_, _, hrun, rfl, rfl, rfl, rfl, ?_⟩
  simp [TracingState.withGraph, Graph.withAllNodes]

theorem sample_inputs_registered :
    ∀ input ∈ ([⟨2⟩, ⟨1⟩] : List Variable),
      ∃ v, sample_session.value_table.lookup input = some v := by
  intro input hin
  simp only [List.mem_cons, List.mem_singleton, List.not_mem_nil, or_false] at hin
  rcases hin with rfl | rfl <;> exact ⟨_, rfl⟩

theorem C5_witness :
    sample_api.PyObject_GetAttrString (PyObject.obj 5) "apply" = some (PyObject.obj 1005) ∧
      tracing_world.tracing_state = some sample_session ∧
      (preRecordPythonTrace sample_api sample_lineno_for_offset (PyObject.obj 5) "dc"
          [⟨2⟩, ⟨1⟩] [PyObject.obj 77] tracing_world).2.tracing_state.map
          (fun st => (st.graph.nodes, st.graph.all_nodes.map (fun n => (n.kind, n.inputs)))) =
        some ([0, 1],
          [(NodeKind.native "aten::add", [⟨10⟩, ⟨11⟩]),
            (NodeKind.PythonOp (PyObject.obj 1005) "dc" [PyObject.obj 77], [⟨11⟩, ⟨10⟩])]) ∧
      ∃ (w1 : World) (st1 : TracingState) (node : Node),
        preRecordPythonTrace sample_api sample_lineno_for_offset (PyObject.obj 5) "dc"
            [⟨2⟩, ⟨1⟩] [PyObject.obj 77] tracing_world =
          (Except.ok sample_session.graph.all_nodes.length, w1) ∧
        w1.tracing_state = some st1 ∧
        st1.graph.nodes =
          sample_session.graph.nodes.take sample_session.graph.insert_point ++
            sample_session.graph.all_nodes.length ::
              sample_session.graph.nodes.drop sample_session.graph.insert_point ∧
        st1.graph.nodes.length = sample_session.graph.nodes.length + 1 ∧
        ((∀ m ∈ sample_session.graph.nodes, m < sample_session.graph.all_nodes.length) →
          sample_session.graph.all_nodes.length ∉ sample_session.graph.nodes) ∧
        st1.graph.all_nodes = sample_session.graph.all_nodes ++ [node] ∧
        node.kind = NodeKind.PythonOp (PyObject.obj 1005) "dc" [PyObject.obj 77] ∧
        node.inputs.map some =
          ([⟨2⟩, ⟨1⟩] : List Variable).map
            (fun input => sample_session.value_table.lookup input) ∧
        node.inputs.length = ([⟨2⟩, ⟨1⟩] : List Variable).length ∧
        st1.value_table = sample_session.value_table :=
  ⟨rfl, rfl, by decide,
    C5_foreign_call_inserts_one_node sample_api sample_lineno_for_offset (PyObject.obj 5) "dc"
      [⟨2⟩, ⟨1⟩] [PyObject.obj 77] tracing_world sample_session (PyObject.obj 1005) rfl rfl
      sample_inputs_registered⟩

theorem C6_witness :
    sample_api.PyObject_GetAttrString (PyObject.obj 500) "apply" = none ∧
      preRecordPythonTrace sample_api sample_lineno_for_offset (PyObject.obj 500) "dc"
          [⟨2⟩, ⟨1⟩] [PyObject.obj 77] tracing_world =
        (Except.error Exception.python_error, tracing_world) ∧
      preRecordPythonTrace sample_api sample_lineno_for_offset (PyObject.obj 500) "dc"
          [⟨2⟩, ⟨1⟩] [PyObject.obj 77] sample_world =
        (Except.error Exception.python_error, sample_world) :=
  ⟨rfl,
    C6_unresolved_apply_fails_first sample_api sample_lineno_for_offset (PyObject.obj 500)
      "dc" [⟨2⟩, ⟨1⟩] [PyObject.obj 77] tracing_world rfl,
    C6_unresolved_apply_fails_first sample_api sample_lineno_for_offset (PyObject.obj 500)
      "dc" [⟨2⟩, ⟨1⟩] [PyObject.obj 77] sample_world rfl⟩

theorem C10_witness :
    sample_api.PyObject_GetAttrString (PyObject.obj 5) "apply" = some (PyObject.obj 1005) ∧
      tracing_world.tracing_state = some sample_session ∧
      (∃ input ∈ ([⟨1⟩, ⟨3⟩] : List Variable),
        sample_session.value_table.lookup input = none) ∧
      (preRecordPythonTrace sample_api sample_lineno_for_offset (PyObject.obj 5) "dc"
          [⟨1⟩, ⟨3⟩] [PyObject.obj 77] tracing_world).2.tracing_state.map
          (fun st => st.graph.nodes) = some [0] ∧
      ∃ (w1 : World) (st1 : TracingState),
        preRecordPythonTrace sample_api sample_lineno_for_offset (PyObject.obj 5) "dc"
            [⟨1⟩, ⟨3⟩] [PyObject.obj 77] tracing_world =
          (Except.error Exception.lookup_error, w1) ∧
        w1.tracing_state = some st1 ∧
        st1.graph.nodes = sample_session.graph.nodes ∧
        st1.graph.insert_point = sample_session.graph.insert_point ∧
        st1.value_table = sample_session.value_table ∧
        st1.graph.all_nodes.length = sample_session.graph.all_nodes.length + 1 :=
  ⟨rfl, rfl, ⟨⟨3⟩, by decide, rfl⟩, by decide,
    C10_failed_lookup_inserts_no_node sample_api sample_lineno_for_offset (PyObject.obj 5)
      "dc" [⟨1⟩, ⟨3⟩] [PyObject.obj 77] tracing_world sample_session (PyObject.obj 1005)
      rfl rfl ⟨⟨3⟩, by decide, rfl⟩⟩

end Recorder

section Results

/-- C9 (amended): on success both entry points return the graph of the session that the
underlying trace produced, together with exactly the output list that trace returned,
and leave the state as the trace left it. -/
theorem C9_result_is_session_graph_and_outputs (trace0 : TraceFn) (api : PyBind)
    (func : py_function) (var_name_lookup_fn : py_function) (strict force_outplace : Bool)
    (self : Option Module) (argument_names : List String) :
    (∀ (trace_inputs : Stack) (w w1 : World) (st : TracingState) (outs : Stack),
      trace0 trace_inputs (createGraphByTracing.traced_fn api func)
          (lookup_fn_adapter api var_name_lookup_fn) strict force_outplace self
          argument_names w = (Except.ok (st, outs), w1) →
      createGraphByTracing trace0 api func trace_inputs var_name_lookup_fn strict
          force_outplace self argument_names w = (Except.ok (st.graph, outs), w1)) ∧
    (∀ (inputs_dict : py_dict) (trace_inputs compact_inputs : Stack) (w w1 : World)
        (st : TracingState) (outs : Stack),
      createGraphByTracingWithDict.compact_trace_inputs api (w.dict_at inputs_dict)
        (createGraphByTracingWithDict.compact_argument_names (w.dict_at inputs_dict)
          argument_names) = Except.ok compact_inputs →
      trace0 compact_inputs (createGraphByTracingWithDict.traced_fn api func inputs_dict)
          (lookup_fn_adapter api var_name_lookup_fn) strict force_outplace self
          (createGraphByTracingWithDict.compact_argument_names (w.dict_at inputs_dict)
            argument_names)
          w = (Except.ok (st, outs), w1) →
      createGraphByTracingWithDict trace0 api func inputs_dict trace_inputs
          var_name_lookup_fn strict force_outplace self argument_names w =
        (Except.ok (st.graph, outs), w1)) := by
  constructor
  · intro trace_inputs w w1 st outs h
    unfold createGraphByTracing
    rw [M.bind_apply, h]
    rfl
  · intro inputs_dict trace_inputs compact_inputs w w1 st outs hc h
    rw [keyed_entry_of_converted hc, M.bind, h]
    rfl

/-- C9 (as stated) fails: tracing the callable that returns its argument, once with
`strict` unset and once with it set, the driver produces two different sessions, and
`createGraphByTracing` returns in both runs the same pair, whose first component is the
graph of the session and not the session. The same holds for a driver that returns two
given sessions with one graph: the results of the entry point are equal. -/
theorem C9_counterexample_first_component_is_the_graph :
    (trace [⟨0⟩] (createGraphByTracing.traced_fn sample_api sample_func)
        (lookup_fn_adapter sample_api sample_lookup) false false none ["x"] sample_world).1 =
      Except.ok (⟨identity_graph, [(⟨0⟩, ⟨0⟩)], false, false⟩, [⟨0⟩]) ∧
    (createGraphByTracing trace sample_api sample_func [⟨0⟩] sample_lookup false false none
        ["x"] sample_world).1 = Except.ok (identity_graph, [⟨0⟩]) ∧
    (trace [⟨0⟩] (createGraphByTracing.traced_fn sample_api sample_func)
        (lookup_fn_adapter sample_api sample_lookup) true false none ["x"] sample_world).1 =
      Except.ok (⟨identity_graph, [(⟨0⟩, ⟨0⟩)], true, false⟩, [⟨0⟩]) ∧
    (createGraphByTracing trace sample_api sample_func [⟨0⟩] sample_lookup true false none
        ["x"] sample_world).1 = Except.ok (identity_graph, [⟨0⟩]) ∧
    (⟨identity_graph, [(⟨0⟩, ⟨0⟩)], false, false⟩ : TracingState) ≠
      ⟨identity_graph, [(⟨0⟩, ⟨0⟩)], true, false⟩ ∧
    createGraphByTracing (const_trace ⟨identity_graph, [], false, false⟩ [⟨0⟩]) sample_api
        sample_func [⟨0⟩] sample_lookup false false none ["x"] sample_world =
      createGraphByTracing (const_trace ⟨identity_graph, [(⟨0⟩, ⟨0⟩)], true, true⟩ [⟨0⟩])
        sample_api sample_func [⟨0⟩] sample_lookup false false none ["x"] sample_world ∧
    createGraphByTracingWithDict (const_trace ⟨identity_graph, [], false, false⟩ [⟨0⟩])
        sample_api sample_func sample_mapping [] sample_lookup false false none ["b"]
        sample_world =
      createGraphByTracingWithDict
        (const_trace ⟨identity_graph, [(⟨0⟩, ⟨0⟩)], true, true⟩ [⟨0⟩])
        sample_api sample_func sample_mapping [] sample_lookup false false none ["b"]
        sample_world :=
  ⟨rfl, rfl, rfl, rfl, by decide, rfl, rfl⟩

theorem C9_witness :
    const_trace sample_session [⟨7⟩] [⟨0⟩] (createGraphByTracing.traced_fn sample_api sample_func)
        (lookup_fn_adapter sample_api sample_lookup) false false none ["x"] sample_world =
      (Except.ok (sample_session, [⟨7⟩]), sample_world) ∧
    createGraphByTracing (const_trace sample_session [⟨7⟩]) sample_api sample_func [⟨0⟩]
        sample_lookup false false none ["x"] sample_world =
      (Except.ok (sample_session.graph, [⟨7⟩]), sample_world) ∧
    createGraphByTracingWithDict.compact_trace_inputs sample_api
        (sample_world.dict_at sample_mapping)
        (createGraphByTracingWithDict.compact_argument_names
          (sample_world.dict_at sample_mapping) ["b"]) = Except.ok [⟨2⟩] ∧
    createGraphByTracingWithDict (const_trace sample_session [⟨7⟩]) sample_api sample_func
        sample_mapping [] sample_lookup false false none ["b"] sample_world =
      (Except.ok (sample_session.graph, [⟨7⟩]), sample_world) :=
  ⟨rfl,
    (C9_result_is_session_graph_and_outputs (const_trace sample_session [⟨7⟩]) sample_api
      sample_func sample_lookup false false none ["x"]).1 [⟨0⟩] sample_world sample_world
      sample_session [⟨7⟩] rfl,
    rfl,
    (C9_result_is_session_graph_and_outputs (const_trace sample_session [⟨7⟩]) sample_api
      sample_func sample_lookup false false none ["b"]).2 sample_mapping [] [⟨2⟩]
      sample_world sample_world sample_session [⟨7⟩] rfl rfl⟩

end Results

end torch.jit.tracer
